import Mathlib

/-!
Shallow embedding of the narrative-transformation pipeline of the
choiceStoryApp repository, covering the components the claims refer to:

* `ConsequenceMapper`      (src/unnamed/part_001)
* `PathConvergence`        (src/backend/src/services/PathConvergence.js)
* `DecisionPointDetector`  (src/backend/src/services/DecisionPointDetector.js)
* `ChoiceGenerator`        (same file, ChoiceGenerator class)

JavaScript numbers that only ever hold small integers are modelled as `Nat`
(with explicit `Int` coercion where the source can compute a negative value);
fractional weights/multipliers are modelled as `Rat`.  JS object-literal
lookups (`table[key]`) are modelled by `jsLookup` on association lists in the
source's key order.  Regular-expression tests are modelled as opaque boolean
matchers `String → Bool` paired with the regex source text (the pattern's
`source` property that the detector stores on matched points); the claims in
scope never depend on the internal semantics of a regex, only on which
patterns match a given window.
-/

namespace ChoiceStory

/-- Confidence levels of a decision point ('none' | 'low' | 'medium' | 'high'
in the source). -/
inductive Confidence where
  | nothing
  | low
  | medium
  | high
deriving DecidableEq, Repr

/-- JS object lookup `table[key]`: first entry whose key matches (object
literals in the source have distinct keys, so first = only). -/
def jsLookup {α : Type} (entries : List (String × α)) (key : String) : Option α :=
  (entries.find? (fun e => e.1 == key)).map (fun e => e.2)

theorem jsLookup_mem {α : Type} {entries : List (String × α)} {key : String} {v : α}
    (h : jsLookup entries key = some v) : v ∈ entries.map Prod.snd := by
  induction entries with
  | nil => simp [jsLookup] at h
  | cons e rest ih =>
    by_cases hk : e.1 == key
    · simp [jsLookup, List.find?, hk] at h
      simp [← h]
    · simp only [jsLookup, List.find?, hk] at h
      exact List.mem_cons_of_mem _ (ih h)

theorem jsLookup_eq_none {α : Type} {entries : List (String × α)} {key : String}
    (h : key ∉ entries.map Prod.fst) : jsLookup entries key = none := by
  induction entries with
  | nil => rfl
  | cons e rest ih =>
    simp only [List.map_cons, List.mem_cons, not_or] at h
    have hk : (e.1 == key) = false := by
      simp only [beq_eq_false_iff_ne, ne_eq]
      exact fun hc => h.1 hc.symm
    simp only [jsLookup, List.find?, hk]
    exact ih h.2

/-! ## Data model -/

/-- `nextSceneModifier` objects of the ConsequenceMapper: JS records with a
varying subset of fields, modelled with one optional slot per field that
occurs in the source's `modifiers` table. -/
structure SceneModifier where
  mood : Option String := Option.none
  pace : Option String := Option.none
  trust : Option Rat := Option.none
  tension : Option Rat := Option.none
  awareness : Option Rat := Option.none
  detail : Option Rat := Option.none
  relationships : Option Rat := Option.none
  vulnerability : Option Rat := Option.none
  knowledge : Option Rat := Option.none
  exposure : Option Rat := Option.none
deriving DecidableEq, Repr

/-- A generated choice (ChoiceGenerator.generateChoicesForPoint). -/
structure Choice where
  id : String
  text : String
  type : String
  weight : Rat
deriving DecidableEq, Repr

/-- A summarized scene (SceneSummarizer.summarize). -/
structure Scene where
  id : String
  decisionPointId : String
  chunkId : String
  content : String
deriving DecidableEq, Repr

/-- A choice set attached to one scene (ChoiceGenerator.generate). -/
structure ChoiceSet where
  id : String
  sceneId : String
  decisionPointId : String
  choices : List Choice
deriving DecidableEq, Repr

/-- One consequence per choice (ConsequenceMapper.mapChoiceSetConsequences). -/
structure Consequence where
  id : String
  choiceId : String
  text : String
  type : String
  duration : String
  emotionalTone : String
  nextSceneModifier : SceneModifier
deriving DecidableEq, Repr

/-- The per-choice-set consequence record produced by ConsequenceMapper.map
(the `metadata` object, which no claim mentions, is omitted). -/
structure ConsequenceSet where
  id : String
  choiceSetId : String
  sceneId : String
  consequences : List Consequence
deriving DecidableEq, Repr

/-- A persona as consumed by the mapper and generator (`key` selects the
styling branch, `name` is only copied into metadata). -/
structure Persona where
  key : String
  name : String
deriving DecidableEq, Repr

/-- Chunk metadata as produced by TextParser (fields used by the detector and
PathConvergence). -/
structure ChunkMetadata where
  hasDialog : Bool
  isChapterStart : Bool
  isChapterEnd : Bool
deriving DecidableEq, Repr

/-- A text chunk as produced by TextParser (fields consumed by the components
in scope). -/
structure Chunk where
  id : String
  index : Nat
  sectionTitle : String
  content : String
  sentences : List String
  metadata : ChunkMetadata
deriving DecidableEq, Repr

/-! ## ConsequenceMapper (src/unnamed/part_001) -/

/-- Template table of `generateConsequenceText`. -/
def consequenceTextTemplates : List (String × String) :=
  [("moral_high", "Your decision to do what\x27s right creates a ripple of positive change."),
   ("moral_low", "Taking the easier path provides immediate relief, but leaves questions unanswered."),
   ("moral_compromise", "Your balanced approach satisfies most, though some concerns remain."),
   ("tactical_direct", "The direct approach leads to immediate action and quick results."),
   ("tactical_stealth", "Moving carefully and quietly, you avoid detection and gather valuable insights."),
   ("tactical_wait", "Patience reveals new information that changes your perspective."),
   ("time_immediate", "Your quick action prevents disaster, though some details are missed."),
   ("time_think", "The brief pause allows for a better plan, though time grows short."),
   ("trust_full", "Your complete trust strengthens bonds and opens new possibilities."),
   ("trust_partial", "Your cautious trust maintains safety while allowing progress."),
   ("info_share", "Sharing the information creates new alliances and opportunities."),
   ("info_hide", "Keeping the secret maintains your advantage for now."),
   ("general_forward", "Moving forward brings new discoveries and challenges."),
   ("general_back", "Returning provides safety but delays your goals."),
   ("general_alternative", "Your creative approach yields unexpected results.")]

/-- Replacement table of `makeConsequencePlayful`, applied in source order.
The source uses case-insensitive global regex replacement; every occurrence in
the template texts is lower-case, so plain replacement is faithful there. -/
def playfulConsequenceReplacements : List (String × String) :=
  [("disaster", "big trouble"),
   ("maintains", "keeps"),
   ("advantage", "special thing"),
   ("perspective", "way of thinking"),
   ("valuable insights", "important clues"),
   ("unexpected results", "surprises")]

/-- ConsequenceMapper.makeConsequencePlayful. -/
def makeConsequencePlayful (text : String) : String :=
  (playfulConsequenceReplacements.foldl
    (fun acc p => acc.replace p.1 p.2) text) ++ " How exciting!"

/-- The template resolution step of `generateConsequenceText`:
`templates[choice.type] || 'Your choice leads to new developments.'`. -/
def consequenceBaseText (choiceType : String) : String :=
  (jsLookup consequenceTextTemplates choiceType).getD
    "Your choice leads to new developments."

/-- ConsequenceMapper.generateConsequenceText (the `scene` argument is unused
by the source body and is kept for signature fidelity). -/
def generateConsequenceText (choice : Choice) (_scene : Scene) (persona : Persona) : String :=
  let text := consequenceBaseText choice.type
  if persona.key == "playful" then makeConsequencePlayful text
  else if persona.key == "adventurous" then "Wow! " ++ text
  else if persona.key == "classic" then "Thus, " ++ text.toLower
  else if persona.key == "objective" then "Result: " ++ text
  else text

/-- Lookup table of `determineConsequenceType`. -/
def consequenceTypeMap : List (String × String) :=
  [("moral_high", "positive_growth"),
   ("moral_low", "temporary_relief"),
   ("tactical_direct", "immediate_progress"),
   ("tactical_stealth", "hidden_advantage"),
   ("time_immediate", "crisis_averted"),
   ("trust_full", "relationship_strengthened"),
   ("info_share", "knowledge_spread")]

/-- ConsequenceMapper.determineConsequenceType. -/
def determineConsequenceType (choiceType : String) : String :=
  (jsLookup consequenceTypeMap choiceType).getD "neutral_development"

/-- Lookup table of `determineEmotionalTone`. -/
def emotionalToneMap : List (String × String) :=
  [("moral_high", "uplifting"),
   ("moral_low", "uncertain"),
   ("moral_compromise", "balanced"),
   ("tactical_direct", "exciting"),
   ("tactical_stealth", "tense"),
   ("time_immediate", "relieved"),
   ("trust_full", "warm"),
   ("trust_partial", "cautious"),
   ("info_share", "open"),
   ("info_hide", "secretive")]

/-- ConsequenceMapper.determineEmotionalTone. -/
def determineEmotionalTone (choiceType : String) : String :=
  (jsLookup emotionalToneMap choiceType).getD "neutral"

/-- Lookup table of `getSceneModifier`. -/
def sceneModifierMap : List (String × SceneModifier) :=
  [("moral_high", { mood := some "positive", trust := some 1.2 }),
   ("moral_low", { mood := some "uncertain", trust := some 0.8 }),
   ("tactical_direct", { pace := some "fast", tension := some 1.1 }),
   ("tactical_stealth", { pace := some "slow", awareness := some 1.3 }),
   ("time_immediate", { pace := some "rushed", detail := some 0.7 }),
   ("trust_full", { relationships := some 1.3, vulnerability := some 1.2 }),
   ("info_share", { knowledge := some 1.2, exposure := some 1.1 })]

/-- ConsequenceMapper.getSceneModifier. -/
def getSceneModifier (choiceType : String) : SceneModifier :=
  (jsLookup sceneModifierMap choiceType).getD
    { mood := some "neutral", pace := some "normal" }

/-- ConsequenceMapper.mapChoiceSetConsequences: one consequence per choice of
the set, in the set's order. -/
def mapChoiceSetConsequences (choiceSet : ChoiceSet) (scene : Scene)
    (persona : Persona) : List Consequence :=
  choiceSet.choices.map (fun choice =>
    { id := "consequence_" ++ choice.id
      choiceId := choice.id
      text := generateConsequenceText choice scene persona
      type := determineConsequenceType choice.type
      duration := "temporary"
      emotionalTone := determineEmotionalTone choice.type
      nextSceneModifier := getSceneModifier choice.type })

/-- ConsequenceMapper.map: choice sets whose scene is not found are skipped
(`continue` in the source). -/
def consequenceMapperMap (choiceSets : List ChoiceSet) (scenes : List Scene)
    (persona : Persona) : List ConsequenceSet :=
  choiceSets.filterMap (fun choiceSet =>
    (scenes.find? (fun s => s.id == choiceSet.sceneId)).map (fun scene =>
      { id := "consequences_" ++ choiceSet.id
        choiceSetId := choiceSet.id
        sceneId := scene.id
        consequences := mapChoiceSetConsequences choiceSet scene persona }))

/-! ## PathConvergence (src/backend/src/services/PathConvergence.js) -/

/-- PathConvergence configuration (`config.maxBranchDepth || 3`,
`config.convergenceBuffer || 2`). -/
structure PCConfig where
  maxBranchDepth : Nat := 3
  convergenceBuffer : Nat := 2
deriving DecidableEq, Repr

/-- PathConvergence.shouldConverge.  `totalScenes - convergenceBuffer` can be
negative in JS, so the comparison is taken over `Int`;
`Math.floor(totalScenes / 5)` is `Nat` division. -/
def shouldConverge (cfg : PCConfig) (sceneIndex totalScenes : Nat) : Bool :=
  if (sceneIndex : Int) ≥ (totalScenes : Int) - (cfg.convergenceBuffer : Int) then
    true
  else
    let interval := max 3 (totalScenes / 5)
    if sceneIndex % interval == 0 then true else false

/-- A node of the story graph (the mutable `outgoing`/`incoming` edge arrays
the source stores on each node are derivable as the edges whose `from`/`to`
equals the node id, see `nodeOutgoing`). -/
structure GraphNode where
  id : String
  index : Nat
  scene : Scene
deriving DecidableEq, Repr

/-- An edge of the story graph.  Source field names are `from`/`to` (`from` is
reserved in Lean).  `consequence` is `consequenceSet.consequences[choiceIndex]`,
which in JS is `undefined` when the index is out of range, hence `Option`. -/
structure Edge where
  id : String
  fromId : String
  toId : String
  choice : Choice
  consequence : Option Consequence
deriving DecidableEq, Repr

/-- The story graph: node map (in scene order) plus edge list. -/
structure StoryGraph where
  nodes : List GraphNode
  edges : List Edge
deriving DecidableEq, Repr

/-- `graph.nodes.get(key)` on the JS `Map`: the most recently set binding for
the key wins, hence the search over the reversed insertion list. -/
def mapGet (nodes : List GraphNode) (key : String) : Option GraphNode :=
  nodes.reverse.find? (fun n => n.id == key)

/-- The `scenes.forEach((scene, index) => graph.nodes.set(scene.id, ...))`
loop of buildStoryGraph. -/
def buildNodes : List Scene → Nat → List GraphNode
  | [], _ => []
  | scene :: rest, index =>
      { id := scene.id, index := index, scene := scene } :: buildNodes rest (index + 1)

/-- The `choiceSet.choices.forEach((choice, choiceIndex) => ...)` loop of
buildStoryGraph: one edge per choice.  `scenes[index + 1]` is only read under
`index < scenes.length - 1`, where it is in range; the `getD` default is
unreachable. -/
def buildEdgesForChoices (cfg : PCConfig) (scenes : List Scene)
    (fromNode : GraphNode) (consequenceSet : ConsequenceSet) (index : Nat) :
    List Choice → Nat → List Edge
  | [], _ => []
  | choice :: rest, choiceIndex =>
      let toSceneId :=
        if index < scenes.length - 1 then
          if shouldConverge cfg fromNode.index scenes.length then
            ((scenes.get? (index + 1)).map (fun s => s.id)).getD ""
          else
            ((scenes.get? (index + 1)).map (fun s => s.id)).getD ""
              ++ "_branch_" ++ toString choiceIndex
        else
          "scene_ending"
      { id := "edge_" ++ choice.id
        fromId := fromNode.id
        toId := toSceneId
        choice := choice
        consequence := consequenceSet.consequences.get? choiceIndex }
        :: buildEdgesForChoices cfg scenes fromNode consequenceSet index rest (choiceIndex + 1)

/-- The `choiceSets.forEach((choiceSet, index) => ...)` loop of
buildStoryGraph: choice sets whose scene node or consequence set is missing
contribute no edges (`return` in the source). -/
def buildEdges (cfg : PCConfig) (scenes : List Scene) (nodes : List GraphNode)
    (consequences : List ConsequenceSet) : List ChoiceSet → Nat → List Edge
  | [], _ => []
  | choiceSet :: rest, index =>
      (match mapGet nodes choiceSet.sceneId with
       | Option.none => []
       | some fromNode =>
         match consequences.find? (fun c => c.choiceSetId == choiceSet.id) with
         | Option.none => []
         | some consequenceSet =>
           buildEdgesForChoices cfg scenes fromNode consequenceSet index choiceSet.choices 0)
      ++ buildEdges cfg scenes nodes consequences rest (index + 1)

/-- PathConvergence.buildStoryGraph. -/
def buildStoryGraph (cfg : PCConfig) (scenes : List Scene)
    (choiceSets : List ChoiceSet) (consequences : List ConsequenceSet) : StoryGraph :=
  let nodes := buildNodes scenes 0
  { nodes := nodes
    edges := buildEdges cfg scenes nodes consequences choiceSets 0 }

/-- The `outgoing` array the source maintains on a node: the edges pushed from
it, in push order. -/
def nodeOutgoing (graph : StoryGraph) (nodeId : String) : List Edge :=
  graph.edges.filter (fun e => e.fromId == nodeId)

/-- A convergence point (identifyConvergencePoints). -/
structure ConvergencePoint where
  id : String
  type : String
  afterSceneIndex : Nat
  reason : String
deriving DecidableEq, Repr

/-- PathConvergence.deduplicateConvergencePoints: keep the first point for
each `afterSceneIndex` (the `seen` set filter). -/
def deduplicateConvergencePoints : List ConvergencePoint → List Nat → List ConvergencePoint
  | [], _ => []
  | point :: rest, seen =>
      if point.afterSceneIndex ∈ seen then
        deduplicateConvergencePoints rest seen
      else
        point :: deduplicateConvergencePoints rest (point.afterSceneIndex :: seen)

/-- PathConvergence.identifyConvergencePoints.  The periodic `for` loop
(`i = interval; i < totalScenes; i += interval`) is expressed as the filter of
`List.range` keeping exactly the visited indices, in the same increasing
order.  The JS numeric-comparator `sort` is stable, matching
`List.insertionSort` on the `afterSceneIndex` key. -/
def identifyConvergencePoints (graph : StoryGraph) (originalChunks : List Chunk) :
    List ConvergencePoint :=
  let totalScenes := graph.nodes.length
  let chapterPoints :=
    ((originalChunks.filter
        (fun chunk => chunk.metadata.isChapterStart || chunk.metadata.isChapterEnd)).map
      (fun chunk => chunk.index)).map
      (fun boundary =>
        { id := "convergence_chapter_" ++ toString boundary
          type := "chapter_boundary"
          afterSceneIndex := boundary
          reason := "Natural chapter boundary" : ConvergencePoint })
  let convergenceInterval := max 3 (totalScenes / 5)
  let periodicPoints :=
    ((List.range totalScenes).filter
        (fun i => convergenceInterval ≤ i && i % convergenceInterval == 0)).map
      (fun i =>
        { id := "convergence_periodic_" ++ toString i
          type := "periodic"
          afterSceneIndex := i
          reason := "Periodic convergence to maintain story coherence" : ConvergencePoint })
  let preEndingPoints :=
    if totalScenes > 3 then
      [{ id := "convergence_pre_ending"
         type := "pre_ending"
         afterSceneIndex := totalScenes - 3
         reason := "Convergence before story ending" : ConvergencePoint }]
    else []
  let sorted := List.insertionSort
    (fun a b => a.afterSceneIndex ≤ b.afterSceneIndex)
    (chapterPoints ++ periodicPoints ++ preEndingPoints)
  deduplicateConvergencePoints sorted []

/-- The `choiceSet.choices.map((choice, i) => ...)` branch arm of
determineNextScenes, with the branch index. -/
def enumNextBranches : List Choice → Nat → Nat → List String
  | [], _, _ => []
  | _ :: rest, next, i =>
      ("scene_" ++ toString next ++ "_branch_" ++ toString i)
        :: enumNextBranches rest next (i + 1)

/-- PathConvergence.determineNextScenes. -/
def determineNextScenes (choiceSet : Option ChoiceSet) (currentIndex totalScenes : Nat)
    (cfg : PCConfig) : List String :=
  match choiceSet with
  | Option.none => ["scene_ending"]
  | some set =>
      if currentIndex ≥ totalScenes - 1 then ["scene_ending"]
      else if shouldConverge cfg currentIndex totalScenes then
        set.choices.map (fun _ => "scene_" ++ toString (currentIndex + 1))
      else
        enumNextBranches set.choices (currentIndex + 1) 0

/-- A formatted scene of the final structure (formatScenes). -/
structure FormattedScene where
  scene : Scene
  choices : List Choice
  consequences : List Consequence
  isConvergencePoint : Bool
  convergenceInfo : Option ConvergencePoint
  nextScenes : List String
deriving DecidableEq, Repr

/-- The `scenes.map((scene, index) => ...)` loop of formatScenes. -/
def formatScenesGo (cfg : PCConfig) (choiceSets : List ChoiceSet)
    (consequences : List ConsequenceSet) (convergencePoints : List ConvergencePoint)
    (totalScenes : Nat) : List Scene → Nat → List FormattedScene
  | [], _ => []
  | scene :: rest, index =>
      let choiceSet := choiceSets.find? (fun cs => cs.sceneId == scene.id)
      let consequenceSet := consequences.find? (fun c => c.sceneId == scene.id)
      let convergencePoint := convergencePoints.find? (fun cp => cp.afterSceneIndex == index)
      { scene := scene
        choices := ((choiceSet.map (fun cs => cs.choices)).getD [])
        consequences := ((consequenceSet.map (fun c => c.consequences)).getD [])
        isConvergencePoint := convergencePoint.isSome
        convergenceInfo := convergencePoint
        nextScenes := determineNextScenes choiceSet index totalScenes cfg }
        :: formatScenesGo cfg choiceSets consequences convergencePoints totalScenes rest (index + 1)

/-- PathConvergence.formatScenes. -/
def formatScenes (cfg : PCConfig) (scenes : List Scene) (choiceSets : List ChoiceSet)
    (consequences : List ConsequenceSet) (convergencePoints : List ConvergencePoint) :
    List FormattedScene :=
  formatScenesGo cfg choiceSets consequences convergencePoints scenes.length scenes 0

/-- PathConvergence.createConvergenceMap: an object keyed by
`afterSceneIndex`; later points overwrite earlier ones with the same key, as
JS assignment does. -/
def createConvergenceMap (convergencePoints : List ConvergencePoint) :
    Nat → Option (String × String × String) :=
  fun idx =>
    ((convergencePoints.reverse.find? (fun p => p.afterSceneIndex == idx)).map
      (fun p => (p.id, p.type, p.reason)))

/-- The ending record of the final structure (extractEnding). -/
structure Ending where
  content : String
  isOriginal : Bool
  chunkId : Option String
deriving DecidableEq, Repr

/-- PathConvergence.extractEnding: the last chunk's last up-to-3 sentences
(`sentences.slice(-3)`), joined with spaces. -/
def extractEnding (chunks : List Chunk) : Ending :=
  match chunks.getLast? with
  | Option.none => { content := "The End", isOriginal := false, chunkId := Option.none }
  | some lastChunk =>
      let sentences := lastChunk.sentences
      let endingSentences := sentences.drop (sentences.length - 3)
      { content := String.intercalate " " endingSentences
        isOriginal := true
        chunkId := some lastChunk.id }

/-- PathConvergence.calculateMaxDepth. -/
def calculateMaxDepth (cfg : PCConfig) (_graph : StoryGraph) : Nat :=
  min cfg.maxBranchDepth 3

/-- Metadata of the final story structure. -/
structure StoryMetadata where
  totalScenes : Nat
  totalChoices : Nat
  convergencePoints : Nat
  maxBranchDepth : Nat
deriving DecidableEq, Repr

/-- The final structure returned by PathConvergence.converge. -/
structure StoryStructure where
  id : String
  metadata : StoryMetadata
  startScene : String
  scenes : List FormattedScene
  convergenceMap : Nat → Option (String × String × String)
  ending : Ending

/-- PathConvergence.converge.  `Date.now()` is passed in as `now`; the logger
calls have no effect on the result and the degenerate inputs below raise no
exception, so the `try`/`catch` rethrow is the identity here. -/
def converge (cfg : PCConfig) (now : Nat) (scenes : List Scene)
    (choiceSets : List ChoiceSet) (consequences : List ConsequenceSet)
    (originalChunks : List Chunk) : StoryStructure :=
  let storyGraph := buildStoryGraph cfg scenes choiceSets consequences
  let convergencePoints := identifyConvergencePoints storyGraph originalChunks
  { id := "story_" ++ toString now
    metadata :=
      { totalScenes := scenes.length
        totalChoices := choiceSets.foldl (fun sum set => sum + set.choices.length) 0
        convergencePoints := convergencePoints.length
        maxBranchDepth := calculateMaxDepth cfg storyGraph }
    startScene := ((scenes.head?.map (fun s => s.id)).getD "scene_start")
    scenes := formatScenes cfg scenes choiceSets consequences convergencePoints
    convergenceMap := createConvergenceMap convergencePoints
    ending := extractEnding originalChunks }

/-! ## DecisionPointDetector (src/backend/src/services/DecisionPointDetector.js) -/

/-- Detector configuration (`minConfidence: config.minConfidence || 'medium'`,
`contextWindow: config.contextWindow || 1`,
`maxPointsPerChunk: config.maxPointsPerChunk || 3`). -/
structure DPConfig where
  minConfidence : String := "medium"
  contextWindow : Nat := 1
  maxPointsPerChunk : Nat := 3
deriving DecidableEq, Repr

/-- A detection pattern: the regex source text together with its test on a
context window (`pattern.test(context)` / `pattern.source`). -/
structure Pattern where
  source : String
  test : String → Bool

/-- A weighted detection category of `initializePatterns`. -/
structure Category where
  name : String
  weight : Rat
  patterns : List Pattern
  examples : List String

/-- The metadata object the detector attaches to category points (generic
choice-cue points carry none). -/
structure DPMetadata where
  hasDialog : Bool
  isChapterBoundary : Bool
deriving DecidableEq, Repr

/-- A decision point. -/
structure DecisionPoint where
  id : String
  category : String
  categoryWeight : Rat
  type : String
  sentenceIndex : Nat
  sentence : String
  context : String
  confidence : Confidence
  pattern : String
  position : Rat
  metadata : Option DPMetadata
deriving DecidableEq, Repr

/-- The inner `for (const pattern of category.patterns)` loop with its
`break`: the first matching pattern's source, if any. -/
def categoryFirstMatch (category : Category) (context : String) : Option String :=
  (category.patterns.find? (fun p => p.test context)).map (fun p => p.source)

/-- DecisionPointDetector.calculateConfidence. -/
def calculateConfidence (choiceCues : List (String → Bool)) (context : String)
    (hasPatternMatch : Bool) : Confidence :=
  let hasChoiceCue := choiceCues.any (fun cue => cue context)
  if hasPatternMatch && hasChoiceCue then Confidence.high
  else if hasPatternMatch then Confidence.medium
  else if hasChoiceCue then Confidence.low
  else Confidence.nothing

/-- The `thresholds` table of meetsConfidenceThreshold, exactly as written in
the source. -/
def confidenceThresholds : List (String × List Confidence) :=
  [("high", [Confidence.high, Confidence.medium, Confidence.low]),
   ("medium", [Confidence.high, Confidence.medium]),
   ("low", [Confidence.high])]

/-- DecisionPointDetector.meetsConfidenceThreshold.  On a key outside the
table, the JS source would throw (`undefined.includes`); the embedding
returns `false`, and no claim evaluates it there. -/
def meetsConfidenceThreshold (minConfidence : String) (confidence : Confidence) : Bool :=
  ((jsLookup confidenceThresholds minConfidence).getD []).contains confidence

/-- DecisionPointDetector.calculateRelativePosition. -/
def calculateRelativePosition (index total : Nat) : Rat :=
  if total > 0 then (index : Rat) / (total : Rat) else 0

/-- The context window of a sentence:
`sentences.slice(max(0, i - w), min(length, i + w + 1)).join(' ')`. -/
def contextOf (contextWindow : Nat) (sentences : List String) (i : Nat) : String :=
  let contextStart := i - contextWindow
  let contextEnd := min sentences.length (i + contextWindow + 1)
  String.intercalate " " ((sentences.drop contextStart).take (contextEnd - contextStart))

/-- A category decision point as pushed by analyzeChunk (`count` is
`points.length` at push time, part of the id). -/
def mkCategoryPoint (chunk : Chunk) (category : Category) (i : Nat) (src : String)
    (confidence : Confidence) (count : Nat) (context : String) : DecisionPoint :=
  { id := "dp_" ++ chunk.id ++ "_" ++ toString i ++ "_" ++ toString count
    category := category.name
    categoryWeight := category.weight
    type := (category.examples.head?).getD ""
    sentenceIndex := i
    sentence := (chunk.sentences.get? i).getD ""
    context := context
    confidence := confidence
    pattern := src
    position := calculateRelativePosition i chunk.sentences.length
    metadata := some
      { hasDialog := chunk.metadata.hasDialog
        isChapterBoundary := chunk.metadata.isChapterStart || chunk.metadata.isChapterEnd } }

/-- The generic choice-cue point of analyzeChunk. -/
def mkGenericPoint (chunk : Chunk) (i : Nat) (context : String) : DecisionPoint :=
  { id := "dp_" ++ chunk.id ++ "_" ++ toString i ++ "_generic"
    category := "General Choice Point"
    categoryWeight := 1
    type := "Choice Cue"
    sentenceIndex := i
    sentence := (chunk.sentences.get? i).getD ""
    context := context
    confidence := Confidence.low
    pattern := "choice_cue"
    position := calculateRelativePosition i chunk.sentences.length
    metadata := Option.none }

/-- The `for (const category of this.categories)` loop of analyzeChunk for one
sentence: a point is pushed for every matching category whose confidence
passes the threshold (the source does not stop at the first matching
category); `count` tracks `points.length` for the ids. -/
def catLoop (cfg : DPConfig) (choiceCues : List (String → Bool)) (chunk : Chunk)
    (context : String) (i : Nat) : List Category → Nat → List DecisionPoint
  | [], _ => []
  | category :: rest, count =>
      match categoryFirstMatch category context with
      | some src =>
          let confidence := calculateConfidence choiceCues context true
          if meetsConfidenceThreshold cfg.minConfidence confidence then
            mkCategoryPoint chunk category i src confidence count context
              :: catLoop cfg choiceCues chunk context i rest (count + 1)
          else
            catLoop cfg choiceCues chunk context i rest count
      | Option.none => catLoop cfg choiceCues chunk context i rest count

/-- The sentence loop of analyzeChunk
(`for (let i = 0; i < sentences.length; i++)`), expressed as structural
recursion over the list of visited indices (`List.range sentences.length` at
the call site).  The generic choice-cue check fires only while the
accumulated `points` list of the whole chunk is still empty
(`if (points.length === 0)` in the source). -/
def analyzeGo (cfg : DPConfig) (categories : List Category)
    (choiceCues : List (String → Bool)) (chunk : Chunk) :
    List Nat → List DecisionPoint → List DecisionPoint
  | [], points => points
  | i :: restIndices, points =>
    let context := contextOf cfg.contextWindow chunk.sentences i
    let catPoints := catLoop cfg choiceCues chunk context i categories points.length
    let points1 := points ++ catPoints
    let points2 :=
      if points1.length == 0 then
        if choiceCues.any (fun cue => cue context) then
          points1 ++ [mkGenericPoint chunk i context]
        else points1
      else points1
    analyzeGo cfg categories choiceCues chunk restIndices points2

/-- One step of the deduplication loop of deduplicatePoints.  The state is
(last kept point, earlier kept points in reverse); the three branches are the
source's append (`≥ 3` apart), replace (`high` beats a non-`high` close
predecessor) and drop cases. -/
def dedupStep (st : DecisionPoint × List DecisionPoint) (point : DecisionPoint) :
    DecisionPoint × List DecisionPoint :=
  if (point.sentenceIndex : Int) - (st.1.sentenceIndex : Int) ≥ 3 then
    (point, st.1 :: st.2)
  else if point.confidence = Confidence.high ∧ ¬ st.1.confidence = Confidence.high then
    (point, st.2)
  else st

/-- Ordering key of the detector's point sort
(`points.sort((a, b) => a.sentenceIndex - b.sentenceIndex)`). -/
def idxLE (a b : DecisionPoint) : Prop := a.sentenceIndex ≤ b.sentenceIndex

instance : DecidableRel idxLE := fun a b => Nat.decLe a.sentenceIndex b.sentenceIndex

instance : IsTotal DecisionPoint idxLE :=
  ⟨fun a b => Nat.le_total a.sentenceIndex b.sentenceIndex⟩

instance : IsTrans DecisionPoint idxLE := ⟨fun _ _ _ => Nat.le_trans⟩

/-- DecisionPointDetector.deduplicatePoints.  The JS `sort` comparator
`a.sentenceIndex - b.sentenceIndex` is a stable ascending sort, which is
`List.insertionSort` on that key.  The source starts with `lastIndex = -999`
and an empty array, so the first sorted point is always appended
(`sentenceIndex - (-999) ≥ 3` for every `sentenceIndex ≥ 0`); the fold below
starts from that state. -/
def deduplicatePoints (points : List DecisionPoint) : List DecisionPoint :=
  if points.length ≤ 1 then points
  else
    match List.insertionSort idxLE points with
    | [] => []
    | p :: rest =>
        let st := rest.foldl dedupStep (p, [])
        (st.1 :: st.2).reverse

/-- DecisionPointDetector.analyzeChunk. -/
def analyzeChunk (cfg : DPConfig) (categories : List Category)
    (choiceCues : List (String → Bool)) (chunk : Chunk) : List DecisionPoint :=
  deduplicatePoints
    (analyzeGo cfg categories choiceCues chunk (List.range chunk.sentences.length) [])

/-! ## ChoiceGenerator (same source file, ChoiceGenerator class) -/

/-- ChoiceGenerator configuration (`minChoices: config.minChoices || 2`,
`maxChoices: config.maxChoices || 4`). -/
structure CGConfig where
  minChoices : Nat := 2
  maxChoices : Nat := 4
deriving DecidableEq, Repr

/-- A choice template of getChoiceTemplates. -/
structure ChoiceTemplate where
  text : String
  type : String
  weight : Rat
deriving DecidableEq, Repr

/-- The 'General Choice Point' fallback templates. -/
def generalChoiceTemplates : List ChoiceTemplate :=
  [{ text := "Go forward", type := "general_forward", weight := 1 },
   { text := "Turn back", type := "general_back", weight := 0.9 },
   { text := "Try something different", type := "general_alternative", weight := 1.1 }]

/-- The template table of getChoiceTemplates. -/
def choiceTemplateTable : List (String × List ChoiceTemplate) :=
  [("Moral & Ethical Crossroads",
    [{ text := "Do the right thing, even if it\x27s difficult", type := "moral_high", weight := 1.2 },
     { text := "Choose the easier path to avoid conflict", type := "moral_low", weight := 0.8 },
     { text := "Find a middle ground that satisfies everyone", type := "moral_compromise", weight := 1 },
     { text := "Follow your heart, regardless of consequences", type := "moral_emotional", weight := 1 }]),
   ("Strategic or Tactical Choices",
    [{ text := "Take the direct approach", type := "tactical_direct", weight := 1 },
     { text := "Use stealth and caution", type := "tactical_stealth", weight := 1 },
     { text := "Wait and gather more information", type := "tactical_wait", weight := 0.9 },
     { text := "Try a creative solution", type := "tactical_creative", weight := 1.1 }]),
   ("Time-Pressure Scenarios",
    [{ text := "Act immediately", type := "time_immediate", weight := 1.2 },
     { text := "Take a moment to think", type := "time_think", weight := 0.8 },
     { text := "Ask for help first", type := "time_help", weight := 1 }]),
   ("Relationship & Trust Conflicts",
    [{ text := "Trust them completely", type := "trust_full", weight := 1 },
     { text := "Be cautious but give them a chance", type := "trust_partial", weight := 1.1 },
     { text := "Protect yourself first", type := "trust_none", weight := 0.9 },
     { text := "Test their loyalty", type := "trust_test", weight := 1 }]),
   ("Information & Knowledge Risks",
    [{ text := "Share the information", type := "info_share", weight := 1 },
     { text := "Keep it secret", type := "info_hide", weight := 1 },
     { text := "Share only part of it", type := "info_partial", weight := 1.1 },
     { text := "Use it as leverage", type := "info_leverage", weight := 0.9 }]),
   ("General Choice Point", generalChoiceTemplates)]

/-- ChoiceGenerator.getChoiceTemplates:
`templates[category] || templates['General Choice Point']` (the persona and
age arguments are unused by the source body). -/
def getChoiceTemplates (category : String) (_persona : Persona) (_targetAge : String) :
    List ChoiceTemplate :=
  (jsLookup choiceTemplateTable category).getD generalChoiceTemplates

/-- Replacement table of ChoiceGenerator.makePlayful (applied in order; the
source uses case-insensitive global replacement, and the occurrences in the
template texts are all lower-case matches of these keys). -/
def playfulChoiceReplacements : List (String × String) :=
  [("Do the right thing", "Be a good friend"),
   ("difficult", "hard"),
   ("conflict", "trouble"),
   ("consequences", "what happens next"),
   ("immediately", "right now"),
   ("information", "secret")]

/-- ChoiceGenerator.makePlayful. -/
def makePlayful (text : String) : String :=
  playfulChoiceReplacements.foldl (fun acc p => acc.replace p.1 p.2) text

/-- ChoiceGenerator.makeAdventurous. -/
def makeAdventurous (text : String) : String :=
  if text.startsWith "Go" then "You decide to " ++ text.toLower
  else if text.startsWith "Take" then "You " ++ text.toLower
  else "You " ++ text.toLower

/-- ChoiceGenerator.makeClassic (`text.includes('the character')`). -/
def makeClassic (text : String) : String :=
  if (text.splitOn "the character").length > 1 then text
  else "The character chooses to " ++ text.toLower

/-- Replacement table of ChoiceGenerator.simplifyForYoung. -/
def youngSimplifications : List (String × String) :=
  [("consequences", "what happens"),
   ("immediately", "now"),
   ("information", "news"),
   ("cautious", "careful"),
   ("creative solution", "new idea"),
   ("gather more information", "learn more")]

/-- ChoiceGenerator.simplifyForYoung. -/
def simplifyForYoung (text : String) : String :=
  youngSimplifications.foldl (fun acc p => acc.replace p.1 p.2) text

/-- `parseInt(targetAge.split('-')[0])`: the leading integer of the age band.
All documented bands start with a number, so the NaN case is irrelevant; the
embedding defaults to 0. -/
def minAgeOf (targetAge : String) : Nat :=
  (((targetAge.splitOn "-").headD "").toNat?).getD 0

/-- ChoiceGenerator.adaptChoiceText. -/
def adaptChoiceText (template : ChoiceTemplate) (_scene : Scene) (persona : Persona)
    (targetAge : String) : String :=
  let text := template.text
  let text :=
    if persona.key == "playful" then makePlayful text
    else if persona.key == "adventurous" then makeAdventurous text
    else if persona.key == "classic" then makeClassic text
    else text
  if minAgeOf targetAge ≤ 8 then simplifyForYoung text else text

/-- The `for (let i = 0; i < numChoices; i++)` loop of
generateChoicesForPoint. -/
def buildChoices (cfg : CGConfig) (scene : Scene) (persona : Persona)
    (targetAge : String) : List ChoiceTemplate → Nat → List Choice
  | [], _ => []
  | template :: rest, i =>
      { id := "choice_" ++ scene.id ++ "_" ++ toString i
        text := adaptChoiceText template scene persona targetAge
        type := template.type
        weight := template.weight }
        :: buildChoices cfg scene persona targetAge rest (i + 1)

/-- ChoiceGenerator.generateChoicesForPoint:
`numChoices = Math.min(templates.length, this.config.maxChoices)` templates
are instantiated (taking the first `maxChoices` templates realizes exactly
the `templates[i]` loop for `i < numChoices`). -/
def generateChoicesForPoint (cfg : CGConfig) (scene : Scene) (decisionPoint : DecisionPoint)
    (persona : Persona) (targetAge : String) : List Choice :=
  let templates := getChoiceTemplates decisionPoint.category persona targetAge
  buildChoices cfg scene persona targetAge (templates.take cfg.maxChoices) 0

/-! ## Shared fixtures for witnesses -/

/-- A concrete scene used by witnesses. -/
def sceneW : Scene :=
  { id := "scene_w", decisionPointId := "dp_w", chunkId := "chunk_w", content := "w" }

/-- A concrete persona used by witnesses. -/
def personaW : Persona := { key := "adventurous", name := "The Adventurous Guide" }

/-- A concrete choice with a type outside the known vocabulary. -/
def choiceW : Choice := { id := "ch0", text := "x", type := "mystery_type", weight := 1 }

/-- A concrete one-choice set used by witnesses. -/
def choiceSetW : ChoiceSet :=
  { id := "cs0", sceneId := "scene_w", decisionPointId := "dp_w", choices := [choiceW] }

/-! ## C7: shouldConverge -/

/-- C7: `shouldConverge(i, N)` returns true exactly when
`i ≥ N − convergenceBuffer` or `i mod max(3, floor(N/5)) = 0`, and scene
index 0 always satisfies the periodic condition. -/
theorem shouldConverge_iff (cfg : PCConfig) (i N : Nat) :
    (shouldConverge cfg i N = true ↔
      ((i : Int) ≥ (N : Int) - (cfg.convergenceBuffer : Int) ∨ i % max 3 (N / 5) = 0))
    ∧ shouldConverge cfg 0 N = true := by
  constructor
  · unfold shouldConverge
    by_cases h1 : (i : Int) ≥ (N : Int) - (cfg.convergenceBuffer : Int)
    · simp [h1]
    · by_cases h2 : i % max 3 (N / 5) = 0 <;> simp [h1, h2]
  · unfold shouldConverge
    by_cases h1 : (0 : Int) ≥ (N : Int) - (cfg.convergenceBuffer : Int)
    · simp [h1]
    · simp [h1]

/-! ## C5: ConsequenceMapper neutral defaults -/

/-- The keys of the four lookup tables of the ConsequenceMapper: the known
choice-type vocabulary of the component. -/
def knownConsequenceTypeKeys : List String :=
  consequenceTextTemplates.map Prod.fst ++ consequenceTypeMap.map Prod.fst
    ++ emotionalToneMap.map Prod.fst ++ sceneModifierMap.map Prod.fst

/-- C5: for a choice type outside the known vocabulary every lookup of the
ConsequenceMapper falls back to its neutral default (no code path can raise:
the embedding of each branch is total), and `mapChoiceSetConsequences` still
produces exactly one consequence per choice. -/
theorem consequenceMapper_neutral_defaults (choiceType : String)
    (h : choiceType ∉ knownConsequenceTypeKeys) :
    determineConsequenceType choiceType = "neutral_development" ∧
    determineEmotionalTone choiceType = "neutral" ∧
    getSceneModifier choiceType = { mood := some "neutral", pace := some "normal" } ∧
    consequenceBaseText choiceType = "Your choice leads to new developments." ∧
    ∀ (choiceSet : ChoiceSet) (scene : Scene) (persona : Persona),
      (mapChoiceSetConsequences choiceSet scene persona).length = choiceSet.choices.length := by
  simp only [knownConsequenceTypeKeys, List.mem_append, not_or] at h
  obtain ⟨⟨⟨h1, h2⟩, h3⟩, h4⟩ := h
  refine ⟨?_, ?_, ?_, ?_, ?_⟩
  · unfold determineConsequenceType
    rw [jsLookup_eq_none h2]
    rfl
  · unfold determineEmotionalTone
    rw [jsLookup_eq_none h3]
    rfl
  · unfold getSceneModifier
    rw [jsLookup_eq_none h4]
    rfl
  · unfold consequenceBaseText
    rw [jsLookup_eq_none h1]
    rfl
  · intro choiceSet scene persona
    unfold mapChoiceSetConsequences
    exact List.length_map _ _

/-- Witness for C5 at the concrete unknown type `mystery_type`. -/
theorem consequenceMapper_neutral_defaults_witness :
    ("mystery_type" ∉ knownConsequenceTypeKeys) ∧
    determineConsequenceType "mystery_type" = "neutral_development" ∧
    determineEmotionalTone "mystery_type" = "neutral" ∧
    getSceneModifier "mystery_type" = { mood := some "neutral", pace := some "normal" } ∧
    consequenceBaseText "mystery_type" = "Your choice leads to new developments." ∧
    (mapChoiceSetConsequences choiceSetW sceneW personaW).length = choiceSetW.choices.length := by
  have hm : "mystery_type" ∉ knownConsequenceTypeKeys := by decide
  have h := consequenceMapper_neutral_defaults "mystery_type" hm
  exact ⟨hm, h.1, h.2.1, h.2.2.1, h.2.2.2.1, h.2.2.2.2 choiceSetW sceneW personaW⟩

/-! ## C6: choice cardinality -/

theorem buildChoices_length (cfg : CGConfig) (scene : Scene) (persona : Persona)
    (targetAge : String) (templates : List ChoiceTemplate) (i : Nat) :
    (buildChoices cfg scene persona targetAge templates i).length = templates.length := by
  induction templates generalizing i with
  | nil => rfl
  | cons t rest ih => simp [buildChoices, ih]

/-- Every category (any string, via the 'General Choice Point' fallback)
resolves to at least 3 templates. -/
theorem getChoiceTemplates_length (category : String) (persona : Persona)
    (targetAge : String) : 3 ≤ (getChoiceTemplates category persona targetAge).length := by
  unfold getChoiceTemplates
  cases h : jsLookup choiceTemplateTable category with
  | none => simp [generalChoiceTemplates]
  | some l =>
    have hm := jsLookup_mem h
    simp only [choiceTemplateTable, List.map_cons, List.map_nil, List.mem_cons,
      List.not_mem_nil, or_false] at hm
    rcases hm with h1 | h1 | h1 | h1 | h1 | h1 <;> subst h1 <;> simp [generalChoiceTemplates]

/-- C6: with `maxChoices` configured in its documented range the number of
choices generated for any scene and any decision-point category (including
the generic fallback) lies between 2 and `maxChoices`. -/
theorem generateChoicesForPoint_cardinality (cfg : CGConfig) (scene : Scene)
    (decisionPoint : DecisionPoint) (persona : Persona) (targetAge : String)
    (h2 : 2 ≤ cfg.maxChoices) (_h4 : cfg.maxChoices ≤ 4) :
    2 ≤ (generateChoicesForPoint cfg scene decisionPoint persona targetAge).length ∧
    (generateChoicesForPoint cfg scene decisionPoint persona targetAge).length
      ≤ cfg.maxChoices := by
  have htmp := getChoiceTemplates_length decisionPoint.category persona targetAge
  unfold generateChoicesForPoint
  rw [buildChoices_length, List.length_take]
  constructor
  · exact le_min h2 (le_trans (by norm_num) htmp)
  · exact min_le_left _ _

/-- A concrete decision point in the 'Time-Pressure Scenarios' category. -/
def dpTimeW : DecisionPoint :=
  { id := "dpw", category := "Time-Pressure Scenarios", categoryWeight := 1, type := "t"
    sentenceIndex := 0, sentence := "", context := "", confidence := Confidence.medium
    pattern := "p", position := 0, metadata := Option.none }

/-- A concrete generator configuration with `maxChoices = 3`. -/
def cgCfgW : CGConfig := { minChoices := 2, maxChoices := 3 }

/-- Witness for C6 at a concrete configuration and category. -/
theorem generateChoicesForPoint_cardinality_witness :
    2 ≤ cgCfgW.maxChoices ∧ cgCfgW.maxChoices ≤ 4 ∧
    2 ≤ (generateChoicesForPoint cgCfgW sceneW dpTimeW personaW "8-10").length ∧
    (generateChoicesForPoint cgCfgW sceneW dpTimeW personaW "8-10").length
      ≤ cgCfgW.maxChoices := by
  have h := generateChoicesForPoint_cardinality cgCfgW sceneW dpTimeW personaW "8-10"
    (by decide) (by decide)
  exact ⟨by decide, by decide, h.1, h.2⟩

/-! ## C9: converge on zero scenes -/

/-- C9: with zero scenes, `converge` returns the degenerate structure
normally: no scene nodes and no edges (navigation goes straight from the
START sentinel to the ending), `startScene` is the `'scene_start'` sentinel,
and the ending is the verbatim last up-to-3 sentences of the final chunk
when chunks exist ('The End' placeholder otherwise). -/
theorem converge_zero_scenes (cfg : PCConfig) (now : Nat) (chunks : List Chunk) :
    (converge cfg now [] [] [] chunks).scenes = [] ∧
    (converge cfg now [] [] [] chunks).startScene = "scene_start" ∧
    (converge cfg now [] [] [] chunks).metadata.totalScenes = 0 ∧
    (converge cfg now [] [] [] chunks).metadata.totalChoices = 0 ∧
    (buildStoryGraph cfg [] [] []).nodes = [] ∧
    (buildStoryGraph cfg [] [] []).edges = [] ∧
    (chunks ≠ [] → ∃ c, chunks.getLast? = some c ∧
      (converge cfg now [] [] [] chunks).ending =
        { content := String.intercalate " " (c.sentences.drop (c.sentences.length - 3))
          isOriginal := true
          chunkId := some c.id }) ∧
    (chunks = [] → (converge cfg now [] [] [] chunks).ending =
      { content := "The End", isOriginal := false, chunkId := Option.none }) := by
  refine ⟨rfl, rfl, rfl, rfl, rfl, rfl, ?_, ?_⟩
  · intro hne
    obtain ⟨c, hc⟩ : ∃ c, chunks.getLast? = some c := by
      cases hq : chunks.getLast? with
      | some c => exact ⟨c, rfl⟩
      | none => exact absurd (List.getLast?_eq_none_iff.mp hq) hne
    refine ⟨c, hc, ?_⟩
    show extractEnding chunks = _
    unfold extractEnding
    rw [hc]
  · intro he
    subst he
    rfl

/-- A concrete chunk used by the C9 witness. -/
def chunkEndW : Chunk :=
  { id := "chunk_end", index := 0, sectionTitle := "Beginning", content := "The story."
    sentences := ["One.", "Two.", "Three.", "Four."]
    metadata := { hasDialog := false, isChapterStart := false, isChapterEnd := false } }

/-- Witness for C9 on a concrete non-empty chunk list. -/
theorem converge_zero_scenes_witness :
    (converge {} 0 [] [] [] [chunkEndW]).scenes = [] ∧
    (converge {} 0 [] [] [] [chunkEndW]).startScene = "scene_start" ∧
    ∃ c, [chunkEndW].getLast? = some c ∧
      (converge {} 0 [] [] [] [chunkEndW]).ending =
        { content := String.intercalate " " (c.sentences.drop (c.sentences.length - 3))
          isOriginal := true
          chunkId := some c.id } := by
  have h := converge_zero_scenes {} 0 [chunkEndW]
  exact ⟨h.1, h.2.1, h.2.2.2.2.2.2.1 (by simp)⟩

/-! ## C4: edge targets are independent of consequence contents -/

theorem find?_choiceSetId_isSome_congr {l1 l2 : List ConsequenceSet}
    (h : l1.map ConsequenceSet.choiceSetId = l2.map ConsequenceSet.choiceSetId)
    (key : String) :
    (l1.find? (fun c => c.choiceSetId == key)).isSome =
      (l2.find? (fun c => c.choiceSetId == key)).isSome := by
  induction l1 generalizing l2 with
  | nil =>
    cases l2 with
    | nil => rfl
    | cons b m => simp at h
  | cons a m ih =>
    cases l2 with
    | nil => simp at h
    | cons b m2 =>
      simp only [List.map_cons, List.cons.injEq] at h
      obtain ⟨h1, h2⟩ := h
      rw [List.find?_cons, List.find?_cons, h1]
      cases hb : (b.choiceSetId == key) with
      | true => rfl
      | false => exact ih h2

theorem buildEdgesForChoices_fromTo (cfg : PCConfig) (scenes : List Scene)
    (fromNode : GraphNode) (cset1 cset2 : ConsequenceSet) (index : Nat)
    (choices : List Choice) (choiceIndex : Nat) :
    (buildEdgesForChoices cfg scenes fromNode cset1 index choices choiceIndex).map
        (fun e => (e.fromId, e.toId)) =
      (buildEdgesForChoices cfg scenes fromNode cset2 index choices choiceIndex).map
        (fun e => (e.fromId, e.toId)) := by
  induction choices generalizing choiceIndex with
  | nil => rfl
  | cons c rest ih => simp only [buildEdgesForChoices, List.map_cons, ih]

theorem buildEdges_fromTo (cfg : PCConfig) (scenes : List Scene) (nodes : List GraphNode)
    {cons1 cons2 : List ConsequenceSet}
    (h : cons1.map ConsequenceSet.choiceSetId = cons2.map ConsequenceSet.choiceSetId)
    (choiceSets : List ChoiceSet) (index : Nat) :
    (buildEdges cfg scenes nodes cons1 choiceSets index).map (fun e => (e.fromId, e.toId)) =
      (buildEdges cfg scenes nodes cons2 choiceSets index).map (fun e => (e.fromId, e.toId)) := by
  induction choiceSets generalizing index with
  | nil => rfl
  | cons cs rest ih =>
    simp only [buildEdges, List.map_append]
    rw [ih]
    congr 1
    cases hm : mapGet nodes cs.sceneId with
    | none => rfl
    | some fromNode =>
      have hs := find?_choiceSetId_isSome_congr h cs.id
      cases h1 : cons1.find? (fun c => c.choiceSetId == cs.id) with
      | none =>
        cases h2 : cons2.find? (fun c => c.choiceSetId == cs.id) with
        | none => rfl
        | some cset2 => rw [h1, h2] at hs; simp at hs
      | some cset1 =>
        cases h2 : cons2.find? (fun c => c.choiceSetId == cs.id) with
        | none => rw [h1, h2] at hs; simp at hs
        | some cset2 => exact buildEdgesForChoices_fromTo cfg scenes fromNode cset1 cset2 index cs.choices 0

/-- C4: for two runs of buildStoryGraph on the same scenes and choice sets
whose consequence lists are aligned on the same `choiceSetId`s, every edge's
`from` and `to` fields coincide — the consequence records (text, type,
emotionalTone, nextSceneModifier) never influence which scene an edge
reaches. -/
theorem buildStoryGraph_modifier_independent (cfg : PCConfig) (scenes : List Scene)
    (choiceSets : List ChoiceSet) (cons1 cons2 : List ConsequenceSet)
    (h : cons1.map ConsequenceSet.choiceSetId = cons2.map ConsequenceSet.choiceSetId) :
    (buildStoryGraph cfg scenes choiceSets cons1).edges.map (fun e => (e.fromId, e.toId)) =
      (buildStoryGraph cfg scenes choiceSets cons2).edges.map (fun e => (e.fromId, e.toId)) :=
  buildEdges_fromTo cfg scenes (buildNodes scenes 0) h choiceSets 0

/-- Scenes of the two-scene C4 witness run. -/
def scenesAB : List Scene :=
  [{ id := "sA", decisionPointId := "dA", chunkId := "cA", content := "" },
   { id := "sB", decisionPointId := "dB", chunkId := "cB", content := "" }]

/-- The choice set of scene sA used by the C4 witness. -/
def choiceSetA : ChoiceSet :=
  { id := "csA", sceneId := "sA", decisionPointId := "dA"
    choices :=
      [{ id := "a0", text := "go", type := "tactical_direct", weight := 1 },
       { id := "a1", text := "wait", type := "tactical_wait", weight := 0.9 }] }

/-- A consequence set for `choiceSetA` whose records carry the given tone and
modifier. -/
def consVariant (tone : String) (modifier : SceneModifier) : ConsequenceSet :=
  { id := "conA", choiceSetId := "csA", sceneId := "sA"
    consequences :=
      [{ id := "q0", choiceId := "a0", text := "tx0", type := "ty0", duration := "temporary"
         emotionalTone := tone, nextSceneModifier := modifier },
       { id := "q1", choiceId := "a1", text := "tx1", type := "ty1", duration := "temporary"
         emotionalTone := tone, nextSceneModifier := modifier }] }

/-- First consequence alignment of the C4 witness. -/
def consRun1 : List ConsequenceSet := [consVariant "exciting" { pace := some "fast" }]

/-- Second consequence alignment of the C4 witness: same choiceSetId, all
record contents changed. -/
def consRun2 : List ConsequenceSet :=
  [consVariant "tense" { pace := some "slow", awareness := some 1.3 }]

/-- Witness for C4: the two concrete runs differ only in consequence record
contents and produce edge-for-edge identical `from`/`to` fields. -/
theorem buildStoryGraph_modifier_independent_witness :
    consRun1.map ConsequenceSet.choiceSetId = consRun2.map ConsequenceSet.choiceSetId ∧
    (buildStoryGraph {} scenesAB [choiceSetA] consRun1).edges.map (fun e => (e.fromId, e.toId)) =
      (buildStoryGraph {} scenesAB [choiceSetA] consRun2).edges.map (fun e => (e.fromId, e.toId)) :=
  ⟨rfl, buildStoryGraph_modifier_independent {} scenesAB [choiceSetA] consRun1 consRun2 rfl⟩

/-! ## C1: dangling branch targets in buildStoryGraph -/

/-- A minimal scene for the C1 run. -/
def mkSceneC1 (n : String) : Scene :=
  { id := n, decisionPointId := "d_" ++ n, chunkId := "c_" ++ n, content := "" }

/-- Four scenes: enough for a non-convergent index (index 1 with N = 4). -/
def scenesC1 : List Scene := [mkSceneC1 "s0", mkSceneC1 "s1", mkSceneC1 "s2", mkSceneC1 "s3"]

/-- A two-choice set for one C1 scene. -/
def mkChoiceSetC1 (sid : String) : ChoiceSet :=
  { id := "cs_" ++ sid, sceneId := sid, decisionPointId := "d_" ++ sid
    choices :=
      [{ id := sid ++ "_c0", text := "t0", type := "general_forward", weight := 1 },
       { id := sid ++ "_c1", text := "t1", type := "general_back", weight := 0.9 }] }

/-- One choice set per C1 scene, as the pipeline produces. -/
def choiceSetsC1 : List ChoiceSet :=
  [mkChoiceSetC1 "s0", mkChoiceSetC1 "s1", mkChoiceSetC1 "s2", mkChoiceSetC1 "s3"]

/-- The consequence sets of the C1 run, produced by the actual
ConsequenceMapper. -/
def consC1 : List ConsequenceSet := consequenceMapperMap choiceSetsC1 scenesC1 personaW

/-- The C1 story graph under the default configuration. -/
def graphC1 : StoryGraph := buildStoryGraph {} scenesC1 choiceSetsC1 consC1

/-- C1 (failing-input evaluation): on a 4-scene run the graph's node set is
exactly the four scenes — it contains neither a START nor an ENDING node —
while scene index 1 is non-convergent, so its edges target the branch
variants `s2_branch_0`/`s2_branch_1`, ids that are not nodes of the graph and
have no outgoing edges; such an edge can never reach ENDING, contradicting
the claimed construction-time invariant. -/
theorem buildStoryGraph_dangling_branch :
    graphC1.nodes.map GraphNode.id = ["s0", "s1", "s2", "s3"] ∧
    graphC1.edges.map Edge.toId =
      ["s1", "s1", "s2_branch_0", "s2_branch_1", "s3", "s3", "scene_ending", "scene_ending"] ∧
    graphC1.nodes.all (fun n => !(n.id == "s2_branch_0")) = true ∧
    nodeOutgoing graphC1 "s2_branch_0" = [] ∧
    graphC1.nodes.all (fun n => !(n.id == "scene_ending")) = true ∧
    graphC1.nodes.all (fun n => !(n.id == "START")) = true :=
  ⟨rfl, rfl, rfl, rfl, rfl, rfl⟩

/-! ## C2: the confidence threshold table is inverted -/

/-- A one-pattern category used by detector fixtures; in the source the
category's patterns are regexes, here the matcher accepts exactly the given
window string. -/
def mkTestCategory (name : String) (weight : Rat) (patternSource : String)
    (window : String) (exampleName : String) : Category :=
  { name := name, weight := weight
    patterns := [{ source := patternSource, test := fun s => s == window }]
    examples := [exampleName] }

/-- The single-sentence chunk of the C2 run. -/
def chunkC2 : Chunk :=
  { id := "ck2", index := 0, sectionTitle := "", content := "They faced a dilemma."
    sentences := ["They faced a dilemma."]
    metadata := { hasDialog := false, isChapterStart := false, isChapterEnd := false } }

/-- One category that matches the C2 chunk's only context window. -/
def catsC2 : List Category :=
  [mkTestCategory "Moral & Ethical Crossroads" 1.5 "dilemma" "They faced a dilemma."
    "Moral Dilemma"]

/-- C2 (failing-input evaluation): the `thresholds` table is inverted —
`minConfidence = 'low'` accepts only `high` (discarding `low` and `medium`
candidates that the claim says must be retained) while
`minConfidence = 'high'` accepts everything; concretely, a medium-confidence
category match is dropped under `'low'` and kept under `'high'`. -/
theorem meetsConfidenceThreshold_inverted :
    meetsConfidenceThreshold "low" Confidence.low = false ∧
    meetsConfidenceThreshold "low" Confidence.medium = false ∧
    meetsConfidenceThreshold "low" Confidence.high = true ∧
    meetsConfidenceThreshold "medium" Confidence.medium = true ∧
    meetsConfidenceThreshold "high" Confidence.low = true ∧
    analyzeChunk { minConfidence := "low" } catsC2 [] chunkC2 = [] ∧
    (analyzeChunk { minConfidence := "high" } catsC2 [] chunkC2).map DecisionPoint.category
      = ["Moral & Ethical Crossroads"] :=
  ⟨rfl, rfl, rfl, rfl, rfl, rfl, rfl⟩

/-! ## C8: deduplication keeps points at least 3 sentences apart -/

/-- Invariant relation on the reversed kept list: each kept point is at least
3 sentences after every point kept before it. -/
def RevGap (a b : DecisionPoint) : Prop :=
  (b.sentenceIndex : Int) + 3 ≤ (a.sentenceIndex : Int)

theorem dedup_fold_invariant (rest : List DecisionPoint) :
    ∀ st : DecisionPoint × List DecisionPoint,
      List.Pairwise RevGap (st.1 :: st.2) →
      (∀ q ∈ rest, st.1.sentenceIndex ≤ q.sentenceIndex) →
      List.Pairwise idxLE rest →
      List.Pairwise RevGap ((rest.foldl dedupStep st).1 :: (rest.foldl dedupStep st).2) := by
  induction rest with
  | nil => intro st h1 _ _; exact h1
  | cons x xs ih =>
    intro st h1 h2 h3
    have hx : st.1.sentenceIndex ≤ x.sentenceIndex := h2 x (List.mem_cons_self _ _)
    have hxs : ∀ q ∈ xs, x.sentenceIndex ≤ q.sentenceIndex :=
      fun q hq => (List.pairwise_cons.mp h3).1 q hq
    have hxs2 : List.Pairwise idxLE xs := (List.pairwise_cons.mp h3).2
    obtain ⟨hhead, htail⟩ := List.pairwise_cons.mp h1
    simp only [List.foldl_cons]
    refine ih (dedupStep st x) ?_ ?_ hxs2
    · unfold dedupStep
      split_ifs with hgap hrep
      · show List.Pairwise RevGap (x :: st.1 :: st.2)
        refine List.pairwise_cons.mpr ⟨?_, h1⟩
        intro b hb
        rcases List.mem_cons.mp hb with hb1 | hb2
        · subst hb1
          unfold RevGap
          omega
        · have := hhead b hb2
          unfold RevGap at this ⊢
          omega
      · show List.Pairwise RevGap (x :: st.2)
        refine List.pairwise_cons.mpr ⟨?_, htail⟩
        intro b hb
        have := hhead b hb
        unfold RevGap at this ⊢
        omega
      · exact h1
    · intro q hq
      unfold dedupStep
      split_ifs
      · exact hxs q hq
      · exact hxs q hq
      · exact le_trans hx (hxs q hq)

/-- The absolute-gap relation of the spacing property is symmetric. -/
theorem absGap_symm : Symmetric
    (fun a b : DecisionPoint => 3 ≤ |(a.sentenceIndex : Int) - (b.sentenceIndex : Int)|) := by
  intro a b h
  rwa [abs_sub_comm]

/-- Helper: the deduplicated list is pairwise at least 3 sentence indices
apart (shared by the spacing and first-category theorems). -/
theorem deduplicatePoints_gap (points : List DecisionPoint) :
    (deduplicatePoints points).Pairwise
      (fun a b => 3 ≤ |(a.sentenceIndex : Int) - (b.sentenceIndex : Int)|) := by
  unfold deduplicatePoints
  split_ifs with hlen
  · match points with
    | [] => simp
    | [a] => simp
    | a :: b :: t => simp at hlen
  · have hsorted : List.Sorted idxLE (List.insertionSort idxLE points) :=
      List.sorted_insertionSort idxLE points
    cases hs : List.insertionSort idxLE points with
    | nil => exact List.Pairwise.nil
    | cons p rest =>
      rw [hs] at hsorted
      obtain ⟨hp, hrest⟩ := List.pairwise_cons.mp hsorted
      have hinv := dedup_fold_invariant rest (p, [])
        (by simp) (fun q hq => hp q hq) hrest
      have hgoal : List.Pairwise
          (fun a b : DecisionPoint =>
            3 ≤ |(a.sentenceIndex : Int) - (b.sentenceIndex : Int)|)
          (((rest.foldl dedupStep (p, [])).1 :: (rest.foldl dedupStep (p, [])).2).reverse) := by
        rw [List.pairwise_reverse]
        refine hinv.imp ?_
        intro a b hab
        unfold RevGap at hab
        calc (3 : Int) ≤ (a.sentenceIndex : Int) - (b.sentenceIndex : Int) := by omega
          _ ≤ |(a.sentenceIndex : Int) - (b.sentenceIndex : Int)| := le_abs_self _
          _ = |(b.sentenceIndex : Int) - (a.sentenceIndex : Int)| := abs_sub_comm _ _
      exact hgoal

/-- C8: after deduplication, the surviving points of a candidate list are
pairwise at least 3 sentence indices apart; in particular no two distinct
survivors are closer than 3 sentences, also when a high-confidence point has
replaced its close predecessor. -/
theorem deduplicatePoints_spacing (points : List DecisionPoint) :
    (deduplicatePoints points).Pairwise
        (fun a b => 3 ≤ |(a.sentenceIndex : Int) - (b.sentenceIndex : Int)|) ∧
      ∀ p ∈ deduplicatePoints points, ∀ q ∈ deduplicatePoints points, p ≠ q →
        3 ≤ |(p.sentenceIndex : Int) - (q.sentenceIndex : Int)| :=
  ⟨deduplicatePoints_gap points,
   fun p hp q hq hne => (deduplicatePoints_gap points).forall absGap_symm hp hq hne⟩

/-- A fixture point for the C8 witness. -/
def mkFixturePoint (n : String) (idx : Nat) (conf : Confidence) : DecisionPoint :=
  { id := n, category := "Moral & Ethical Crossroads", categoryWeight := 1, type := "t"
    sentenceIndex := idx, sentence := "", context := "", confidence := conf
    pattern := "p", position := 0, metadata := Option.none }

/-- Low-confidence point at sentence 0. -/
def dpLowA : DecisionPoint := mkFixturePoint "a" 0 Confidence.low

/-- High-confidence point at sentence 2 (closer than 3 to `dpLowA`, so it
replaces it). -/
def dpHighB : DecisionPoint := mkFixturePoint "b" 2 Confidence.high

/-- Low-confidence point at sentence 5. -/
def dpLowC : DecisionPoint := mkFixturePoint "c" 5 Confidence.low

/-- Witness for C8 on a concrete list that exercises the replacement branch:
the high point at sentence 2 replaces the low point at sentence 0, and the
two survivors are 3 apart. -/
theorem deduplicatePoints_spacing_witness :
    deduplicatePoints [dpLowA, dpHighB, dpLowC] = [dpHighB, dpLowC] ∧
    dpHighB ≠ dpLowC ∧
    3 ≤ |(dpHighB.sentenceIndex : Int) - (dpLowC.sentenceIndex : Int)| := by
  have hout : deduplicatePoints [dpLowA, dpHighB, dpLowC] = [dpHighB, dpLowC] := rfl
  have hne : dpHighB ≠ dpLowC := fun h =>
    absurd (congrArg DecisionPoint.sentenceIndex h) (by decide)
  have hmem1 : dpHighB ∈ deduplicatePoints [dpLowA, dpHighB, dpLowC] := by
    rw [hout]; exact List.mem_cons_self _ _
  have hmem2 : dpLowC ∈ deduplicatePoints [dpLowA, dpHighB, dpLowC] := by
    rw [hout]; exact List.mem_cons_of_mem _ (List.mem_cons_self _ _)
  exact ⟨hout, hne,
    (deduplicatePoints_spacing [dpLowA, dpHighB, dpLowC]).2 dpHighB hmem1 dpLowC hmem2 hne⟩

/-! ## C3: per sentence, the first matching category wins -/

/-- Every point generated by the category loop for sentence `i` carries
sentence index `i`, the confidence computed once from the window, and the
name of one of the scanned categories. -/
theorem catLoop_mem (cfg : DPConfig) (cues : List (String → Bool)) (chunk : Chunk)
    (ctx : String) (i : Nat) :
    ∀ (cats : List Category) (count : Nat) (p : DecisionPoint),
      p ∈ catLoop cfg cues chunk ctx i cats count →
      p.sentenceIndex = i ∧ p.confidence = calculateConfidence cues ctx true := by
  intro cats
  induction cats with
  | nil => intro count p hp; simp [catLoop] at hp
  | cons c cs ih =>
    intro count p hp
    unfold catLoop at hp
    cases hm : categoryFirstMatch c ctx with
    | some src =>
      rw [hm] at hp
      dsimp only at hp
      split_ifs at hp with hth
      · rcases List.mem_cons.mp hp with hp1 | hp2
        · subst hp1; exact ⟨rfl, rfl⟩
        · exact ih (count + 1) p hp2
      · exact ih count p hp
    | none =>
      rw [hm] at hp
      exact ih count p hp

/-- If the window's confidence does not pass the threshold, the category loop
produces nothing at all (the confidence is the same for every category). -/
theorem catLoop_empty_of_below (cfg : DPConfig) (cues : List (String → Bool))
    (chunk : Chunk) (ctx : String) (i : Nat)
    (hth : ¬ meetsConfidenceThreshold cfg.minConfidence
      (calculateConfidence cues ctx true) = true) :
    ∀ (cats : List Category) (count : Nat),
      catLoop cfg cues chunk ctx i cats count = [] := by
  intro cats
  induction cats with
  | nil => intro count; rfl
  | cons c cs ih =>
    intro count
    unfold catLoop
    cases hm : categoryFirstMatch c ctx with
    | some src => simp only [if_neg hth]; exact ih count
    | none => exact ih count

/-- The head of the category loop's output is the point of the first category
whose pattern list matches the window. -/
theorem catLoop_head (cfg : DPConfig) (cues : List (String → Bool)) (chunk : Chunk)
    (ctx : String) (i : Nat) :
    ∀ (cats : List Category) (count : Nat) (q : DecisionPoint),
      (catLoop cfg cues chunk ctx i cats count).head? = some q →
      ∃ c, cats.find? (fun c => (categoryFirstMatch c ctx).isSome) = some c ∧
        q.category = c.name := by
  intro cats
  induction cats with
  | nil => intro count q hq; simp [catLoop] at hq
  | cons c cs ih =>
    intro count q hq
    unfold catLoop at hq
    cases hm : categoryFirstMatch c ctx with
    | some src =>
      rw [hm] at hq
      dsimp only at hq
      by_cases hth : meetsConfidenceThreshold cfg.minConfidence
          (calculateConfidence cues ctx true) = true
      · rw [if_pos hth] at hq
        simp only [List.head?_cons, Option.some.injEq] at hq
        refine ⟨c, ?_, ?_⟩
        · rw [List.find?_cons]
          have : ((categoryFirstMatch c ctx).isSome : Bool) = true := by rw [hm]; rfl
          simp [this]
        · rw [← hq]; rfl
      · rw [if_neg hth, catLoop_empty_of_below cfg cues chunk ctx i hth] at hq
        simp at hq
    | none =>
      rw [hm] at hq
      obtain ⟨c2, hc2, hcat⟩ := ih count q hq
      refine ⟨c2, ?_, hcat⟩
      rw [List.find?_cons]
      have : ((categoryFirstMatch c ctx).isSome : Bool) = false := by rw [hm]; rfl
      simp [this, hc2]

/-- A well-formed first element of a surviving block: either the chunk-global
generic choice-cue point, or the point of the first category matching its
window. -/
def GoodHead (cfg : DPConfig) (cats : List Category) (chunk : Chunk)
    (q : DecisionPoint) : Prop :=
  q.category = "General Choice Point" ∨
  ∃ c, cats.find? (fun c =>
      (categoryFirstMatch c (contextOf cfg.contextWindow chunk.sentences q.sentenceIndex)).isSome)
    = some c ∧ q.category = c.name

/-- A block of points generated for one sentence: a common sentence index and
a common confidence, and a head that is a first-category or generic point. -/
def GoodBlock (cfg : DPConfig) (cats : List Category) (chunk : Chunk)
    (b : List DecisionPoint) : Prop :=
  (∃ n γ, ∀ p ∈ b, p.sentenceIndex = n ∧ p.confidence = γ) ∧
  ∀ q, b.head? = some q → GoodHead cfg cats chunk q

/-- One unfolding step of the sentence loop. -/
theorem analyzeGo_cons (cfg : DPConfig) (cats : List Category)
    (cues : List (String → Bool)) (chunk : Chunk) (i : Nat) (restIdx : List Nat)
    (points : List DecisionPoint) :
    analyzeGo cfg cats cues chunk (i :: restIdx) points =
      analyzeGo cfg cats cues chunk restIdx
        (let context := contextOf cfg.contextWindow chunk.sentences i
         let catPoints := catLoop cfg cues chunk context i cats points.length
         let points1 := points ++ catPoints
         if points1.length == 0 then
           if cues.any (fun cue => cue context) then
             points1 ++ [mkGenericPoint chunk i context]
           else points1
         else points1) := rfl

/-- The sentence loop only appends points, and everything it appends is
organized in per-sentence blocks whose heads are first-category or generic
points. -/
theorem analyzeGo_blocks (cfg : DPConfig) (cats : List Category)
    (cues : List (String → Bool)) (chunk : Chunk) :
    ∀ (indices : List Nat) (points : List DecisionPoint),
      ∃ blocks : List (List DecisionPoint),
        analyzeGo cfg cats cues chunk indices points = points ++ blocks.join ∧
        ∀ b ∈ blocks, GoodBlock cfg cats chunk b := by
  intro indices
  induction indices with
  | nil =>
    intro points
    exact ⟨[], by simp [analyzeGo], by simp⟩
  | cons i restIdx ih =>
    intro points
    rw [analyzeGo_cons]
    simp only
    by_cases hlen : ((points ++ catLoop cfg cues chunk
        (contextOf cfg.contextWindow chunk.sentences i) i cats points.length).length == 0) = true
    · rw [if_pos hlen]
      have hpts : points = [] ∧ catLoop cfg cues chunk
          (contextOf cfg.contextWindow chunk.sentences i) i cats points.length = [] := by
        simp only [beq_iff_eq, List.length_append, Nat.add_eq_zero,
          List.length_eq_zero] at hlen
        exact hlen
      by_cases hcue : (cues.any (fun cue =>
          cue (contextOf cfg.contextWindow chunk.sentences i))) = true
      · rw [if_pos hcue]
        obtain ⟨blocks, hEq, hGood⟩ := ih ((points ++ catLoop cfg cues chunk
          (contextOf cfg.contextWindow chunk.sentences i) i cats points.length)
            ++ [mkGenericPoint chunk i (contextOf cfg.contextWindow chunk.sentences i)])
        refine ⟨[mkGenericPoint chunk i (contextOf cfg.contextWindow chunk.sentences i)]
            :: blocks, ?_, ?_⟩
        · rw [hEq, hpts.2, hpts.1]
          simp
        · intro b hb
          rcases List.mem_cons.mp hb with hb1 | hb2
          · subst hb1
            refine ⟨⟨i, Confidence.low, ?_⟩, ?_⟩
            · intro p hp
              rcases List.mem_singleton.mp hp with hp1
              subst hp1
              exact ⟨rfl, rfl⟩
            · intro q hq
              simp only [List.head?_cons, Option.some.injEq] at hq
              subst hq
              exact Or.inl rfl
          · exact hGood b hb2
      · rw [if_neg (by simpa using hcue)]
        obtain ⟨blocks, hEq, hGood⟩ := ih (points ++ catLoop cfg cues chunk
          (contextOf cfg.contextWindow chunk.sentences i) i cats points.length)
        exact ⟨blocks, by rw [hEq, hpts.2]; simp, hGood⟩
    · rw [if_neg (by simpa using hlen)]
      obtain ⟨blocks, hEq, hGood⟩ := ih (points ++ catLoop cfg cues chunk
        (contextOf cfg.contextWindow chunk.sentences i) i cats points.length)
      refine ⟨(catLoop cfg cues chunk (contextOf cfg.contextWindow chunk.sentences i) i
          cats points.length) :: blocks, ?_, ?_⟩
      · rw [hEq]
        simp
      · intro b hb
        rcases List.mem_cons.mp hb with hb1 | hb2
        · subst hb1
          refine ⟨⟨i, calculateConfidence cues
              (contextOf cfg.contextWindow chunk.sentences i) true, ?_⟩, ?_⟩
          · intro p hp
            exact catLoop_mem cfg cues chunk _ i cats points.length p hp
          · intro q hq
            obtain ⟨c, hc, hcat⟩ := catLoop_head cfg cues chunk _ i cats points.length q hq
            right
            have hqi : q.sentenceIndex = i :=
              (catLoop_mem cfg cues chunk _ i cats points.length q
                (List.mem_of_mem_head? hq)).1
            rw [hqi]
            exact ⟨c, hc, hcat⟩
        · exact hGood b hb2

theorem join_cons_eq {α : Type} (b : List α) (bs : List (List α)) :
    (b :: bs).join = b ++ bs.join := rfl

/-- Once the last kept point has the block's sentence index and confidence,
the remaining points of a homogeneous block are all dropped (gap 0, equal
confidence). -/
theorem foldl_dedupStep_same (n : Nat) (γ : Confidence) :
    ∀ (t : List DecisionPoint) (st : DecisionPoint × List DecisionPoint),
      (∀ p ∈ t, p.sentenceIndex = n ∧ p.confidence = γ) →
      st.1.sentenceIndex = n → st.1.confidence = γ →
      t.foldl dedupStep st = st := by
  intro t
  induction t with
  | nil => intro st _ _ _; rfl
  | cons x xs ih =>
    intro st ht hn hγ
    obtain ⟨hxn, hxγ⟩ := ht x (List.mem_cons_self _ _)
    have h1 : ¬ ((x.sentenceIndex : Int) - (st.1.sentenceIndex : Int) ≥ 3) := by
      rw [hxn, hn]; omega
    have h2 : ¬ (x.confidence = Confidence.high ∧ ¬ st.1.confidence = Confidence.high) := by
      rw [hxγ, hγ]; tauto
    have hstep : dedupStep st x = st := by
      unfold dedupStep; rw [if_neg h1, if_neg h2]
    rw [List.foldl_cons, hstep]
    exact ih st (fun p hp => ht p (List.mem_cons_of_mem _ hp)) hn hγ

/-- If the head of a homogeneous block is dropped, the whole block is
dropped. -/
theorem foldl_dedupStep_drop (n : Nat) (γ : Confidence) :
    ∀ (t : List DecisionPoint) (st : DecisionPoint × List DecisionPoint),
      (∀ p ∈ t, p.sentenceIndex = n ∧ p.confidence = γ) →
      ¬ ((n : Int) - (st.1.sentenceIndex : Int) ≥ 3) →
      ¬ (γ = Confidence.high ∧ ¬ st.1.confidence = Confidence.high) →
      t.foldl dedupStep st = st := by
  intro t
  induction t with
  | nil => intro st _ _ _; rfl
  | cons x xs ih =>
    intro st ht h1 h2
    obtain ⟨hxn, hxγ⟩ := ht x (List.mem_cons_self _ _)
    have h1x : ¬ ((x.sentenceIndex : Int) - (st.1.sentenceIndex : Int) ≥ 3) := by
      rw [hxn]; exact h1
    have h2x : ¬ (x.confidence = Confidence.high ∧ ¬ st.1.confidence = Confidence.high) := by
      rw [hxγ]; exact h2
    have hstep : dedupStep st x = st := by
      unfold dedupStep; rw [if_neg h1x, if_neg h2x]
    rw [List.foldl_cons, hstep]
    exact ih st (fun p hp => ht p (List.mem_cons_of_mem _ hp)) h1 h2

/-- Processing one homogeneous block either leaves the state untouched or
keeps exactly the block's head, possibly archiving the previous last kept
point. -/
theorem foldl_dedupStep_block (n : Nat) (γ : Confidence) (b : List DecisionPoint)
    (hb : ∀ p ∈ b, p.sentenceIndex = n ∧ p.confidence = γ)
    (st : DecisionPoint × List DecisionPoint) :
    b.foldl dedupStep st = st ∨
    ∃ q, b.head? = some q ∧ (b.foldl dedupStep st).1 = q ∧
      ((b.foldl dedupStep st).2 = st.2 ∨ (b.foldl dedupStep st).2 = st.1 :: st.2) := by
  cases b with
  | nil => left; rfl
  | cons x t =>
    obtain ⟨hxn, hxγ⟩ := hb x (List.mem_cons_self _ _)
    have ht : ∀ p ∈ t, p.sentenceIndex = n ∧ p.confidence = γ :=
      fun p hp => hb p (List.mem_cons_of_mem _ hp)
    by_cases h1 : ((x.sentenceIndex : Int) - (st.1.sentenceIndex : Int) ≥ 3)
    · have hstep : dedupStep st x = (x, st.1 :: st.2) := by
        unfold dedupStep; rw [if_pos h1]
      have hfold : (x :: t).foldl dedupStep st = (x, st.1 :: st.2) := by
        rw [List.foldl_cons, hstep]
        exact foldl_dedupStep_same n γ t (x, st.1 :: st.2) ht hxn hxγ
      exact Or.inr ⟨x, rfl, by rw [hfold], Or.inr (by rw [hfold])⟩
    · by_cases h2 : (x.confidence = Confidence.high ∧ ¬ st.1.confidence = Confidence.high)
      · have hstep : dedupStep st x = (x, st.2) := by
          unfold dedupStep; rw [if_neg h1, if_pos h2]
        have hfold : (x :: t).foldl dedupStep st = (x, st.2) := by
          rw [List.foldl_cons, hstep]
          exact foldl_dedupStep_same n γ t (x, st.2) ht hxn hxγ
        exact Or.inr ⟨x, rfl, by rw [hfold], Or.inl (by rw [hfold])⟩
      · have hstep : dedupStep st x = st := by
          unfold dedupStep; rw [if_neg h1, if_neg h2]
        have h1' : ¬ ((n : Int) - (st.1.sentenceIndex : Int) ≥ 3) := by
          rw [← hxn]; exact h1
        have h2' : ¬ (γ = Confidence.high ∧ ¬ st.1.confidence = Confidence.high) := by
          rw [← hxγ]; exact h2
        left
        rw [List.foldl_cons, hstep]
        exact foldl_dedupStep_drop n γ t st ht h1' h2'

/-- Folding the deduplication step over a concatenation of homogeneous
blocks only ever keeps block heads (besides what the initial state already
held). -/
theorem foldl_dedupStep_joinBlocks :
    ∀ (blocks : List (List DecisionPoint)) (st : DecisionPoint × List DecisionPoint),
      (∀ b ∈ blocks, ∃ n γ, ∀ p ∈ b, p.sentenceIndex = n ∧ p.confidence = γ) →
      ∀ x, (x = (blocks.join.foldl dedupStep st).1 ∨
            x ∈ (blocks.join.foldl dedupStep st).2) →
        x = st.1 ∨ x ∈ st.2 ∨ ∃ b ∈ blocks, b.head? = some x := by
  intro blocks
  induction blocks with
  | nil =>
    intro st _ x hx
    simp only [List.join_nil, List.foldl_nil] at hx
    tauto
  | cons b bs ih =>
    intro st hhom x hx
    rw [join_cons_eq, List.foldl_append] at hx
    obtain ⟨n, γ, hb⟩ := hhom b (List.mem_cons_self _ _)
    have hbs : ∀ b2 ∈ bs, ∃ n γ, ∀ p ∈ b2, p.sentenceIndex = n ∧ p.confidence = γ :=
      fun b2 hb2 => hhom b2 (List.mem_cons_of_mem _ hb2)
    rcases foldl_dedupStep_block n γ b hb st with hsame | ⟨q, hq, hfst, hsnd⟩
    · rw [hsame] at hx
      rcases ih st hbs x hx with h | h | ⟨b2, hb2, hh⟩
      · exact Or.inl h
      · exact Or.inr (Or.inl h)
      · exact Or.inr (Or.inr ⟨b2, List.mem_cons_of_mem _ hb2, hh⟩)
    · rcases ih (b.foldl dedupStep st) hbs x hx with h | h | ⟨b2, hb2, hh⟩
      · rw [hfst] at h
        exact Or.inr (Or.inr ⟨b, List.mem_cons_self _ _, by rw [h]; exact hq⟩)
      · rcases hsnd with h2 | h2
        · rw [h2] at h
          exact Or.inr (Or.inl h)
        · rw [h2] at h
          rcases List.mem_cons.mp h with h3 | h3
          · exact Or.inl h3
          · exact Or.inr (Or.inl h3)
      · exact Or.inr (Or.inr ⟨b2, List.mem_cons_of_mem _ hb2, hh⟩)

/-- Decomposing a join that starts with `p`: the leading blocks are empty,
then comes the block starting with `p`. -/
theorem join_eq_cons {α : Type} :
    ∀ {L : List (List α)} {p : α} {rest : List α}, L.join = p :: rest →
      ∃ pre t post, L = pre ++ (p :: t) :: post ∧ (∀ b ∈ pre, b = []) ∧
        rest = t ++ post.join := by
  intro L
  induction L with
  | nil => intro p rest h; simp at h
  | cons b bs ih =>
    intro p rest h
    cases b with
    | nil =>
      rw [join_cons_eq, List.nil_append] at h
      obtain ⟨pre, t, post, h1, h2, h3⟩ := ih h
      refine ⟨[] :: pre, t, post, by rw [h1]; rfl, ?_, h3⟩
      intro b2 hb2
      rcases List.mem_cons.mp hb2 with hc | hc
      · exact hc
      · exact h2 b2 hc
    | cons y t2 =>
      rw [join_cons_eq, List.cons_append] at h
      injection h with hy hrest
      subst hy
      exact ⟨[], t2, bs, rfl, by simp, hrest.symm⟩

/-- Deduplicating a sorted concatenation of homogeneous blocks keeps only
block heads. -/
theorem dedup_joinBlocks_heads (blocks : List (List DecisionPoint))
    (hhom : ∀ b ∈ blocks, ∃ n γ, ∀ p ∈ b, p.sentenceIndex = n ∧ p.confidence = γ)
    (hsorted : List.Pairwise idxLE blocks.join) :
    ∀ x ∈ deduplicatePoints blocks.join, ∃ b ∈ blocks, b.head? = some x := by
  intro x hx
  unfold deduplicatePoints at hx
  split_ifs at hx with hlen
  · obtain ⟨b, hbmem, hxb⟩ := List.mem_join.mp hx
    refine ⟨b, hbmem, ?_⟩
    have hsub : b.Sublist blocks.join := List.sublist_join hbmem
    have hlb : b.length ≤ 1 := le_trans hsub.length_le hlen
    cases b with
    | nil => exact absurd hxb (List.not_mem_nil x)
    | cons y ys =>
      cases ys with
      | nil =>
        have : x = y := by
          rcases List.mem_cons.mp hxb with hc | hc
          · exact hc
          · exact absurd hc (List.not_mem_nil x)
        rw [this]
        rfl
      | cons z zs => simp at hlb
  · have hid : List.insertionSort idxLE blocks.join = blocks.join :=
      List.Sorted.insertionSort_eq hsorted
    rw [hid] at hx
    cases hj : blocks.join with
    | nil => rw [hj] at hx; simp at hx
    | cons p rest =>
      rw [hj] at hx
      dsimp only at hx
      obtain ⟨pre, t, post, hL, _hpre, hrest⟩ := join_eq_cons hj
      have hb0mem : (p :: t) ∈ blocks := by
        rw [hL]; exact List.mem_append_right _ (List.mem_cons_self _ _)
      obtain ⟨n, γ, hb0⟩ := hhom (p :: t) hb0mem
      have hpn := hb0 p (List.mem_cons_self _ _)
      have ht : ∀ q ∈ t, q.sentenceIndex = n ∧ q.confidence = γ :=
        fun q hq => hb0 q (List.mem_cons_of_mem _ hq)
      rw [hrest, List.foldl_append,
        foldl_dedupStep_same n γ t (p, []) ht hpn.1 hpn.2] at hx
      rw [List.mem_reverse] at hx
      have hx2 : x = (post.join.foldl dedupStep (p, [])).1 ∨
          x ∈ (post.join.foldl dedupStep (p, [])).2 := by
        rcases List.mem_cons.mp hx with h | h
        · exact Or.inl h
        · exact Or.inr h
      have hpost : ∀ b2 ∈ post, ∃ n γ, ∀ q ∈ b2, q.sentenceIndex = n ∧ q.confidence = γ :=
        fun b2 hb2 => hhom b2 (by
          rw [hL]; exact List.mem_append_right _ (List.mem_cons_of_mem _ hb2))
      rcases foldl_dedupStep_joinBlocks post (p, []) hpost x hx2 with h | h | ⟨b2, hb2, hh⟩
      · refine ⟨p :: t, hb0mem, ?_⟩
        rw [h]
        rfl
      · exact absurd h (List.not_mem_nil x)
      · exact ⟨b2, by
          rw [hL]; exact List.mem_append_right _ (List.mem_cons_of_mem _ hb2), hh⟩

/-- A list of points with a common sentence index is trivially sorted. -/
theorem pairwise_idxLE_of_const {l : List DecisionPoint} {n : Nat}
    (h : ∀ p ∈ l, p.sentenceIndex = n) : l.Pairwise idxLE := by
  induction l with
  | nil => exact List.Pairwise.nil
  | cons x xs ih =>
    refine List.pairwise_cons.mpr
      ⟨?_, ih (fun p hp => h p (List.mem_cons_of_mem _ hp))⟩
    intro b hb
    unfold idxLE
    rw [h x (List.mem_cons_self _ _), h b (List.mem_cons_of_mem _ hb)]

/-- The sentence loop visits strictly increasing indices, so the generated
point list is sorted by sentence index. -/
theorem analyzeGo_sorted (cfg : DPConfig) (cats : List Category)
    (cues : List (String → Bool)) (chunk : Chunk) :
    ∀ (indices : List Nat) (points : List DecisionPoint),
      List.Pairwise (· < ·) indices →
      (∀ p ∈ points, ∀ j ∈ indices, p.sentenceIndex < j) →
      List.Pairwise idxLE points →
      List.Pairwise idxLE (analyzeGo cfg cats cues chunk indices points) := by
  intro indices
  induction indices with
  | nil => intro points _ _ hp; exact hp
  | cons i rest ih =>
    intro points hidx hbound hp
    rw [analyzeGo_cons]
    simp only
    obtain ⟨hihead, hitail⟩ := List.pairwise_cons.mp hidx
    have happend : ∀ newPts : List DecisionPoint,
        (∀ p ∈ newPts, p.sentenceIndex = i) →
        List.Pairwise idxLE (points ++ newPts) ∧
          ∀ p ∈ points ++ newPts, ∀ j ∈ rest, p.sentenceIndex < j := by
      intro newPts hnew
      constructor
      · rw [List.pairwise_append]
        refine ⟨hp, pairwise_idxLE_of_const hnew, ?_⟩
        intro a ha b hb
        have ha2 : a.sentenceIndex < i := hbound a ha i (List.mem_cons_self _ _)
        unfold idxLE
        rw [hnew b hb]
        omega
      · intro p hp2 j hj
        rcases List.mem_append.mp hp2 with h | h
        · exact hbound p h j (List.mem_cons_of_mem _ hj)
        · rw [hnew p h]
          exact hihead j hj
    have hcatidx : ∀ p ∈ catLoop cfg cues chunk
        (contextOf cfg.contextWindow chunk.sentences i) i cats points.length,
        p.sentenceIndex = i :=
      fun p hp2 => (catLoop_mem cfg cues chunk _ i cats points.length p hp2).1
    by_cases hlen : ((points ++ catLoop cfg cues chunk
        (contextOf cfg.contextWindow chunk.sentences i) i cats points.length).length == 0)
        = true
    · rw [if_pos hlen]
      by_cases hcue : (cues.any (fun cue =>
          cue (contextOf cfg.contextWindow chunk.sentences i))) = true
      · rw [if_pos hcue]
        have h2 := happend (catLoop cfg cues chunk
            (contextOf cfg.contextWindow chunk.sentences i) i cats points.length
              ++ [mkGenericPoint chunk i (contextOf cfg.contextWindow chunk.sentences i)])
          (by
            intro p hp2
            rcases List.mem_append.mp hp2 with h | h
            · exact hcatidx p h
            · rw [List.mem_singleton.mp h]
              rfl)
        rw [List.append_assoc]
        exact ih _ hitail h2.2 h2.1
      · rw [if_neg (by simpa using hcue)]
        have h2 := happend _ hcatidx
        exact ih _ hitail h2.2 h2.1
    · rw [if_neg (by simpa using hlen)]
      have h2 := happend _ hcatidx
      exact ih _ hitail h2.2 h2.1

/-- C3: in the output of analyzeChunk, every surviving non-generic point
carries the name of the first category (in scan order) whose pattern list
matches its context window — categories matching later contribute no point —
and no sentence index carries more than one surviving point. -/
theorem analyzeChunk_first_category_wins (cfg : DPConfig) (cats : List Category)
    (cues : List (String → Bool)) (chunk : Chunk) :
    (∀ p ∈ analyzeChunk cfg cats cues chunk, p.category ≠ "General Choice Point" →
      ∃ c, cats.find? (fun c =>
          (categoryFirstMatch c
            (contextOf cfg.contextWindow chunk.sentences p.sentenceIndex)).isSome)
        = some c ∧ p.category = c.name) ∧
    (∀ p ∈ analyzeChunk cfg cats cues chunk, ∀ q ∈ analyzeChunk cfg cats cues chunk,
      p.sentenceIndex = q.sentenceIndex → p = q) := by
  obtain ⟨blocks, hEq, hGood⟩ := analyzeGo_blocks cfg cats cues chunk
    (List.range chunk.sentences.length) []
  rw [List.nil_append] at hEq
  have hsorted : List.Pairwise idxLE
      (analyzeGo cfg cats cues chunk (List.range chunk.sentences.length) []) :=
    analyzeGo_sorted cfg cats cues chunk _ [] (List.pairwise_lt_range _)
      (by simp) (by simp)
  constructor
  · intro p hp hpcat
    unfold analyzeChunk at hp
    rw [hEq] at hp
    have hsorted2 : List.Pairwise idxLE blocks.join := by rw [← hEq]; exact hsorted
    obtain ⟨b, hbmem, hbhead⟩ :=
      dedup_joinBlocks_heads blocks (fun b hb => (hGood b hb).1) hsorted2 p hp
    rcases (hGood b hbmem).2 p hbhead with h | h
    · exact absurd h hpcat
    · exact h
  · intro p hp q hq hidx
    unfold analyzeChunk at hp hq
    by_contra hne
    have hgap := (deduplicatePoints_gap _).forall absGap_symm hp hq hne
    rw [hidx] at hgap
    simp at hgap

/-- The single sentence of the C3 witness, matching two categories. -/
def sentC3 : String := "They faced a dilemma at the fork of the path."

/-- The chunk of the C3 witness. -/
def chunkC3 : Chunk :=
  { id := "ck3", index := 0, sectionTitle := "", content := sentC3
    sentences := [sentC3]
    metadata := { hasDialog := false, isChapterStart := false, isChapterEnd := false } }

/-- First category of the C3 witness (matches the window). -/
def catMoral3 : Category :=
  mkTestCategory "Moral & Ethical Crossroads" 1.5 "dilemma" sentC3 "Moral Dilemma"

/-- Second category of the C3 witness (also matches the window). -/
def catTactical3 : Category :=
  mkTestCategory "Strategic or Tactical Choices" 1.3 "path" sentC3
    "Literal Fork in the Path"

/-- The C3 witness categories, in priority order. -/
def catsC3 : List Category := [catMoral3, catTactical3]

/-- The context window of the C3 witness sentence. -/
def ctxC3 : String := contextOf 1 chunkC3.sentences 0

/-- The point the detector keeps for the C3 witness sentence: the
first-category point. -/
def pointC3 : DecisionPoint :=
  mkCategoryPoint chunkC3 catMoral3 0 "dilemma" Confidence.medium 0 ctxC3

/-- Witness for C3: with two categories matching the same sentence, the
output has exactly the first category's point. -/
theorem analyzeChunk_first_category_wins_witness :
    pointC3 ∈ analyzeChunk {} catsC3 [] chunkC3 ∧
    pointC3.category ≠ "General Choice Point" ∧
    (∃ c, catsC3.find? (fun c =>
        (categoryFirstMatch c (contextOf ({} : DPConfig).contextWindow chunkC3.sentences
          pointC3.sentenceIndex)).isSome) = some c ∧ pointC3.category = c.name) ∧
    (analyzeChunk {} catsC3 [] chunkC3).map DecisionPoint.category
      = ["Moral & Ethical Crossroads"] := by
  have hout : analyzeChunk {} catsC3 [] chunkC3 = [pointC3] := rfl
  have hmem : pointC3 ∈ analyzeChunk {} catsC3 [] chunkC3 := by
    rw [hout]
    exact List.mem_cons_self _ _
  have hcat : pointC3.category ≠ "General Choice Point" := by decide
  exact ⟨hmem, hcat,
    (analyzeChunk_first_category_wins {} catsC3 [] chunkC3).1 pointC3 hmem hcat, rfl⟩

/-! ## C10: positional choice/consequence alignment -/

/-- The mapper returns consequences positionally aligned with the choice
list: slot `j` carries the id of choice `j`. -/
theorem mapChoiceSetConsequences_align (cs : ChoiceSet) (scene : Scene)
    (persona : Persona) (j : Nat) :
    ((mapChoiceSetConsequences cs scene persona).get? j).map Consequence.choiceId
      = (cs.choices.get? j).map Choice.id := by
  unfold mapChoiceSetConsequences
  rw [List.get?_map]
  cases cs.choices.get? j <;> rfl

/-- A consequence set found by `choiceSetId` in the mapper's output belongs
to the unique choice set with that id. -/
theorem mapperMap_find_eq {choiceSets : List ChoiceSet} {scenes : List Scene}
    {persona : Persona} {cs : ChoiceSet} {cset : ConsequenceSet}
    (hids : (choiceSets.map ChoiceSet.id).Nodup) (hcs : cs ∈ choiceSets)
    (hf : (consequenceMapperMap choiceSets scenes persona).find?
      (fun c => c.choiceSetId == cs.id) = some cset) :
    ∃ scene, cset.consequences = mapChoiceSetConsequences cs scene persona := by
  have hmem : cset ∈ consequenceMapperMap choiceSets scenes persona :=
    List.mem_of_find?_eq_some hf
  have hpred : cset.choiceSetId = cs.id := by
    have h2 := List.find?_some hf
    simpa using h2
  unfold consequenceMapperMap at hmem
  obtain ⟨cs2, hcs2mem, hF⟩ := List.mem_filterMap.mp hmem
  obtain ⟨scene, _hscene, hFs⟩ := Option.map_eq_some'.mp hF
  have hid2 : cset.choiceSetId = cs2.id := by rw [← hFs]
  have heq : cs2.id = cs.id := by rw [← hid2]; exact hpred
  have hcseq : cs2 = cs := List.inj_on_of_nodup_map hids hcs2mem hcs heq
  refine ⟨scene, ?_⟩
  rw [← hFs, hcseq]

/-- Every edge built from a choice suffix whose consequence slots align with
the choice ids carries the consequence of its own choice. -/
theorem buildEdgesForChoices_aligned (cfg : PCConfig) (scenes : List Scene)
    (fromNode : GraphNode) (cset : ConsequenceSet) (index : Nat) :
    ∀ (choices : List Choice) (k : Nat),
      (∀ j, (cset.consequences.get? (k + j)).map Consequence.choiceId
        = (choices.get? j).map Choice.id) →
      ∀ e ∈ buildEdgesForChoices cfg scenes fromNode cset index choices k,
        ∃ c, e.consequence = some c ∧ c.choiceId = e.choice.id := by
  intro choices
  induction choices with
  | nil => intro k _ e he; simp [buildEdgesForChoices] at he
  | cons ch rest ih =>
    intro k halign e he
    unfold buildEdgesForChoices at he
    rcases List.mem_cons.mp he with h | h
    · subst h
      have h0 := halign 0
      rw [Nat.add_zero] at h0
      cases hc : cset.consequences.get? k with
      | none => rw [hc] at h0; simp at h0
      | some c =>
        rw [hc] at h0
        simp only [Option.map_some', List.get?, Option.some.injEq] at h0
        exact ⟨c, rfl, h0⟩
    · refine ih (k + 1) ?_ e h
      intro j
      have := halign (j + 1)
      rw [show k + (j + 1) = (k + 1) + j by omega] at this
      simpa using this

/-- Lifting the alignment through the choice-set loop of buildStoryGraph. -/
theorem buildEdges_aligned (cfg : PCConfig) (scenes : List Scene)
    (nodes : List GraphNode) (persona : Persona) (choiceSets : List ChoiceSet)
    (hids : (choiceSets.map ChoiceSet.id).Nodup) :
    ∀ (csList : List ChoiceSet) (index : Nat),
      (∀ cs ∈ csList, cs ∈ choiceSets) →
      ∀ e ∈ buildEdges cfg scenes nodes
          (consequenceMapperMap choiceSets scenes persona) csList index,
        ∃ c, e.consequence = some c ∧ c.choiceId = e.choice.id := by
  intro csList
  induction csList with
  | nil => intro index _ e he; simp [buildEdges] at he
  | cons cs rest ih =>
    intro index hsub e he
    unfold buildEdges at he
    rw [List.mem_append] at he
    rcases he with h | h
    · cases hm : mapGet nodes cs.sceneId with
      | none => rw [hm] at h; simp at h
      | some fromNode =>
        rw [hm] at h
        cases hf : (consequenceMapperMap choiceSets scenes persona).find?
            (fun c => c.choiceSetId == cs.id) with
        | none => rw [hf] at h; simp at h
        | some cset =>
          rw [hf] at h
          obtain ⟨scene, hcons⟩ :=
            mapperMap_find_eq hids (hsub cs (List.mem_cons_self _ _)) hf
          refine buildEdgesForChoices_aligned cfg scenes fromNode cset index
            cs.choices 0 ?_ e h
          intro j
          rw [hcons]
          simpa using mapChoiceSetConsequences_align cs scene persona j
    · exact ih (index + 1) (fun c hc => hsub c (List.mem_cons_of_mem _ hc)) e h

/-- C10: the mapper emits consequences in the positional order of the
choices (slot k carries choice k's id), and buildStoryGraph pairs choice k
with consequence slot k, so every edge of a graph built from
mapper-produced consequences (with distinct choice-set ids, as the pipeline
generates) carries the consequence derived from its own choice. -/
theorem consequence_positional_alignment (cfg : PCConfig) (scenes : List Scene)
    (choiceSets : List ChoiceSet) (persona : Persona)
    (hids : (choiceSets.map ChoiceSet.id).Nodup) :
    (∀ (cs : ChoiceSet) (scene : Scene) (j : Nat),
      ((mapChoiceSetConsequences cs scene persona).get? j).map Consequence.choiceId
        = (cs.choices.get? j).map Choice.id) ∧
    ∀ e ∈ (buildStoryGraph cfg scenes choiceSets
        (consequenceMapperMap choiceSets scenes persona)).edges,
      ∃ c, e.consequence = some c ∧ c.choiceId = e.choice.id := by
  refine ⟨fun cs scene j => mapChoiceSetConsequences_align cs scene persona j, ?_⟩
  intro e he
  exact buildEdges_aligned cfg scenes (buildNodes scenes 0) persona choiceSets hids
    choiceSets 0 (fun c hc => hc) e he

/-- The C10 witness graph: one choice set on two scenes, consequences from
the actual mapper. -/
def graphC10 : StoryGraph :=
  buildStoryGraph {} scenesAB [choiceSetA]
    (consequenceMapperMap [choiceSetA] scenesAB personaW)

/-- The first edge of the C10 witness graph. -/
def edgeC10 : Edge :=
  graphC10.edges.headD
    { id := "", fromId := "", toId := "", choice := choiceW, consequence := Option.none }

/-- Witness for C10 at the concrete run: the first edge carries the
consequence of its own choice. -/
theorem consequence_positional_alignment_witness :
    ([choiceSetA].map ChoiceSet.id).Nodup ∧
    (((mapChoiceSetConsequences choiceSetA sceneW personaW).get? 0).map Consequence.choiceId
      = (choiceSetA.choices.get? 0).map Choice.id) ∧
    ∃ c, edgeC10.consequence = some c ∧ c.choiceId = edgeC10.choice.id := by
  have hids : ([choiceSetA].map ChoiceSet.id).Nodup := by decide
  have hhead : graphC10.edges.head? = some edgeC10 := rfl
  have hmem : edgeC10 ∈ graphC10.edges := List.mem_of_mem_head? hhead
  have h := consequence_positional_alignment {} scenesAB [choiceSetA] personaW hids
  exact ⟨hids, h.1 choiceSetA sceneW 0, h.2 edgeC10 hmem⟩

end ChoiceStory
